import Mathlib

/-!
Verification of the Encrypted ClientHello (ECH) engine in ssl/ech.c.

Bytes are modelled as `List Nat` (each element a value 0..255 produced by the
same arithmetic the C code uses).  PACKET-style readers are modelled as
functions of a buffer plus an offset; loops whose progress is data-dependent
take an explicit fuel argument (always called with enough fuel, as proved or
checked where used) so that every definition is executable by the kernel.
External collaborators (hash, HKDF, HPKE seal/open) are parameters.
-/

namespace ECH

/-- big-endian 2-byte encoding, as produced by `x/256` and `x%256` stores. -/
def be16 (n : Nat) : List Nat := [n / 256 % 256, n % 256]

/-- big-endian 3-byte encoding, as produced by the three shift/mask stores. -/
def be24 (n : Nat) : List Nat := [n / 65536 % 256, n / 256 % 256, n % 256]

/-- read a big-endian u16 at offset `i` (`b[i]*256+b[i+1]` in the source). -/
def readU16 (l : List Nat) (i : Nat) : Nat := l.getD i 0 * 256 + l.getD (i + 1) 0

/-! ### Constants

Values from `ech.h`/`ech_local.h`/`tls1.h`.  Those headers are not part of the
sources here; the numeric values follow the specification text (minimum 10,
maximum 1500, 4-byte suites, 255-byte host names, the draft-09 and draft-10
ECH versions and the ECH, outer-extensions, server-name extension codepoints).
-/

def ECH_MIN_ECHCONFIG_LEN : Nat := 10
def ECH_MAX_ECHCONFIG_LEN : Nat := 1500
def ECH_CIPHER_LEN : Nat := 4
def TLSEXT_MAXLEN_host_name : Nat := 255
def ECH_DRAFT_09_VERSION : Nat := 0xfe09
def ECH_DRAFT_10_VERSION : Nat := 0xfe0a
def TLSEXT_TYPE_ech : Nat := 0xfe0a
def TLSEXT_TYPE_outer_extensions : Nat := 0xfd00
def TLSEXT_TYPE_server_name : Nat := 0
def ECH_OUTERS_MAX : Nat := 20
def MAX_ECH_ENC_LEN : Nat := 1024
def MAX_ECH_PAYLOAD_LEN : Nat := 16384
def SSL_MAX_SSL_SESSION_ID_LENGTH : Nat := 32

/-- Modelled from the spec: the literal 7 bytes of "tls ech" (the HPKE info
prefix, `ECH_CONTEXT_STRING` in the missing local header). -/
def ECH_CONTEXT_STRING : List Nat := [116, 108, 115, 32, 101, 99, 104]

/-- Modelled from the spec: the HKDF label "ech accept confirmation"
(`ECH_ACCEPT_CONFIRM_STRING` in the missing local header). -/
def ECH_ACCEPT_CONFIRM_STRING : List Nat :=
  [101, 99, 104, 32, 97, 99, 99, 101, 112, 116, 32, 99, 111, 110, 102, 105,
   114, 109, 97, 116, 105, 111, 110]

/-! ### PACKET reader primitives (from ssl/packet.c semantics) -/

/-- `PACKET_get_net_2`: read 2 bytes big-endian at `pos`, if available. -/
def pktGet2 (buf : List Nat) (pos : Nat) : Option (Nat × Nat) :=
  if pos + 2 ≤ buf.length then some (readU16 buf pos, pos + 2) else none

/-- `PACKET_copy_bytes` for 1 byte. -/
def pktCopy1 (buf : List Nat) (pos : Nat) : Option (Nat × Nat) :=
  if pos + 1 ≤ buf.length then some (buf.getD pos 0, pos + 1) else none

/-- `PACKET_copy_bytes`: copy `n` bytes starting at `pos`, if available. -/
def pktCopy (buf : List Nat) (pos n : Nat) : Option (List Nat × Nat) :=
  if pos + n ≤ buf.length then some ((buf.drop pos).take n, pos + n) else none

/-- `PACKET_get_length_prefixed_2`: read a u16 length, return the sub-packet
as (start, length, position after the sub-packet). -/
def pktLP2 (buf : List Nat) (pos : Nat) : Option (Nat × Nat × Nat) :=
  match pktGet2 buf pos with
  | none => none
  | some (len, p) => if p + len ≤ buf.length then some (p, len, p + len) else none

/-! ### ECHConfigs_from_binary (ssl/ech.c lines 553..1008) -/

/-- One decoded ECHConfig (the fields of `ECHConfig` that the decoder fills).
`public_name` holds the stored buffer, i.e. the wire bytes plus the
terminating NUL written by the source.  `encoding_start`/`encoding_length`
are the offset/length recorded for the raw-encoding window. -/
structure ECHConfig where
  version : Nat
  config_id : Nat := 0
  kem_id : Nat := 0
  pub : List Nat := []
  ciphersuites : List (List Nat) := []
  maximum_name_length : Nat := 0
  public_name : List Nat := []
  exts : List (Nat × List Nat) := []
  encoding_start : Nat
  encoding_length : Nat
deriving Repr, DecidableEq

/-- The `while (PACKET_copy_bytes(&cipher_suites, cipher, ECH_CIPHER_LEN))`
loop: copy 4-byte chunks while 4 bytes remain, returning the chunks and the
uncopied remainder. -/
def copySuites : List Nat → (List (List Nat) × List Nat)
  | a :: b :: c :: d :: rest =>
      let r := copySuites rest
      ([a, b, c, d] :: r.1, r.2)
  | l => ([], l)

/-- The ciphersuites sub-parse shared verbatim by the draft-10 and draft-09
branches: reject `suiteoctets<=0 || (suiteoctets % 1)`, copy 4-byte chunks,
reject if any octets remain uncopied. -/
def parseSuites (sub : List Nat) : Option (List (List Nat)) :=
  let suiteoctets := sub.length
  if suiteoctets = 0 ∨ suiteoctets % 1 ≠ 0 then none
  else
    let r := copySuites sub
    if r.2.length > 0 then none else some r.1

/-- The public_name sub-parse shared by both branches: a u16-length-prefixed
name, rejected unless `1 < len ≤ TLSEXT_MAXLEN_host_name`; the stored copy is
NUL-terminated. -/
def parsePublicName (buf : List Nat) (pos : Nat) : Option (List Nat × Nat) :=
  match pktLP2 buf pos with
  | none => none
  | some (p, len, newpos) =>
      if len ≤ 1 ∨ len > TLSEXT_MAXLEN_host_name then none
      else some (((buf.drop p).take len) ++ [0], newpos)

/-- The ECHConfig-extensions loop shared by both branches: a list of
(u16 type, u16 len, bytes) inside the sub-packet `[pos, endp)`.  The source's
`extlen>=ECH_MAX_ECHCONFIGEXT_LEN` check precedes the read of `extlen` and so
always passes; it is omitted.  Fuel bounds the iteration count. -/
def parseCfgExts (buf : List Nat) : Nat → Nat → Nat → Option (List (Nat × List Nat))
  | 0, _, _ => none
  | fuel + 1, pos, endp =>
      if endp ≤ pos then some []
      else if pos + 4 ≤ endp then
        let etype := readU16 buf pos
        let elen := readU16 buf (pos + 2)
        if pos + 4 + elen ≤ endp then
          match parseCfgExts buf fuel (pos + 4 + elen) endp with
          | none => none
          | some rest => some ((etype, (buf.drop (pos + 4)).take elen) :: rest)
        else none
      else none

/-- The ECH_DRAFT_10_VERSION body: config_id, kem_id, public key, suites,
maximum_name_length, public_name, extensions (in that order). -/
def parseDraft10Body (buf : List Nat) (pos start olen : Nat) :
    Option (ECHConfig × Nat) := do
  let (cid, p1) ← pktCopy1 buf pos
  let (kem, p2) ← pktGet2 buf p1
  let (pubstart, publen, p3) ← pktLP2 buf p2
  let (sstart, slen, p4) ← pktLP2 buf p3
  let suites ← parseSuites ((buf.drop sstart).take slen)
  let (mnl, p5) ← pktGet2 buf p4
  let (pname, p6) ← parsePublicName buf p5
  let (estart, elen, p7) ← pktLP2 buf p6
  let exts ← parseCfgExts buf (elen + 1) estart (estart + elen)
  pure ({ version := ECH_DRAFT_10_VERSION, config_id := cid, kem_id := kem,
          pub := (buf.drop pubstart).take publen, ciphersuites := suites,
          maximum_name_length := mnl, public_name := pname, exts := exts,
          encoding_start := start, encoding_length := olen }, p7)

/-- The ECH_DRAFT_09_VERSION body: public_name, public key, kem_id, suites,
maximum_name_length, extensions (in that order). -/
def parseDraft09Body (buf : List Nat) (pos start olen : Nat) :
    Option (ECHConfig × Nat) := do
  let (pname, p1) ← parsePublicName buf pos
  let (pubstart, publen, p2) ← pktLP2 buf p1
  let (kem, p3) ← pktGet2 buf p2
  let (sstart, slen, p4) ← pktLP2 buf p3
  let suites ← parseSuites ((buf.drop sstart).take slen)
  let (mnl, p5) ← pktGet2 buf p4
  let (estart, elen, p6) ← pktLP2 buf p5
  let exts ← parseCfgExts buf (elen + 1) estart (estart + elen)
  pure ({ version := ECH_DRAFT_09_VERSION, kem_id := kem,
          pub := (buf.drop pubstart).take publen, ciphersuites := suites,
          maximum_name_length := mnl, public_name := pname, exts := exts,
          encoding_start := start, encoding_length := olen }, p6)

/-- The `while (remaining>not_to_consume)` loop of `ECHConfigs_from_binary`:
read version and content length, skip unknown versions, parse known bodies,
collecting configs and finally the unread remainder. -/
def cfgLoop (buf : List Nat) (olen ntc : Nat) : Nat → Nat → Option (List ECHConfig × Nat)
  | 0, _ => none
  | fuel + 1, pos =>
      if buf.length - pos > ntc then do
        let (version, p1) ← pktGet2 buf pos
        let (clen, p2) ← pktGet2 buf p1
        -- (ech_content_length-2) > remaining, with unsigned wrap for clen < 2
        if clen < 2 ∨ clen - 2 > buf.length - p2 then none
        else if version = ECH_DRAFT_10_VERSION then do
          let (ec, p3) ← parseDraft10Body buf p2 pos olen
          let (rest, leftover) ← cfgLoop buf olen ntc fuel p3
          pure (ec :: rest, leftover)
        else if version = ECH_DRAFT_09_VERSION then do
          let (ec, p3) ← parseDraft09Body buf p2 pos olen
          let (rest, leftover) ← cfgLoop buf olen ntc fuel p3
          pure (ec :: rest, leftover)
        else do
          let (_, p3) ← pktCopy buf p2 clen
          cfgLoop buf olen ntc fuel p3
      else some ([], buf.length - pos)

/-- The decoded ECHConfigs record: the config array plus the raw encoding. -/
structure ECHConfigs where
  recs : List ECHConfig
  encoded_len : Nat
deriving Repr, DecidableEq

/-- `ECHConfigs_from_binary`: decode the first ECHConfigs from a binary
buffer, returning it together with the number of unconsumed octets
(the `leftover` out-parameter). -/
def ECHConfigs_from_binary (binbuf : List Nat) : Option (ECHConfigs × Nat) :=
  if binbuf.length = 0 then none
  else if binbuf.length < ECH_MIN_ECHCONFIG_LEN then none
  else if binbuf.length ≥ ECH_MAX_ECHCONFIG_LEN then none
  else
    match pktGet2 binbuf 0 with
    | none => none
    | some (olen, p1) =>
      if olen < ECH_MIN_ECHCONFIG_LEN ∨ olen > binbuf.length - 2 then none
      else if binbuf.length ≤ olen then none
      else
        match cfgLoop binbuf olen (binbuf.length - olen) (binbuf.length + 1) p1 with
        | none => none
        | some (recs, leftover) =>
          if leftover > binbuf.length then none
          else some ({ recs := recs, encoded_len := binbuf.length }, leftover)

/-! ### ech_make_enc_info (lines 3454..3466) -/

/-- `ech_make_enc_info`: "tls ech", one zero byte, then the bytes of the
recorded raw-encoding window of the config, guarded by the caller buffer
size.  `buf` is the binary buffer the window points back into. -/
def ech_make_enc_info (buf : List Nat) (tc : ECHConfig) (maxlen : Nat) :
    Option (List Nat) :=
  if maxlen < ECH_CONTEXT_STRING.length + 1 + tc.encoding_length then none
  else some (ECH_CONTEXT_STRING ++ [0] ++
    ((buf.drop tc.encoding_start).take tc.encoding_length))

/-! ### SSL_CTX_ech_server_flush_keys (lines 1541..1570) -/

/-- A stored server key as far as flushing is concerned: its load time and an
identity tag (standing for the rest of the `SSL_ECH` structure). -/
structure SSLECHEntry where
  loadtime : Int
  keyid : Nat
deriving Repr, DecidableEq

/-- The deletion/compaction loop of `SSL_CTX_ech_server_flush_keys`: an entry
is deleted when `loadtime + age <= now`; survivors are compacted in order. -/
def flushLoop (now age : Int) : List SSLECHEntry → List SSLECHEntry
  | [] => []
  | e :: rest =>
      if e.loadtime + age ≤ now then flushLoop now age rest
      else e :: flushLoop now age rest

/-- `SSL_CTX_ech_server_flush_keys` acting on the stored key list: a
non-positive age empties the store, otherwise the deletion loop runs. -/
def SSL_CTX_ech_server_flush_keys (now age : Int) (store : List SSLECHEntry) :
    List SSLECHEntry :=
  if age ≤ 0 then [] else flushLoop now age store

/-! ### ech_base64_decode buffer mutation (lines 198..250) and the
local_ech_add dispatch (lines 1021..1147) -/

/-- `strcspn(inp, ";")`: length of the prefix free of the separator 59. -/
def strcspnSemi : List Nat → Nat
  | [] => 0
  | c :: rest => if c = 59 then 0 else 1 + strcspnSemi rest

/-- The fragment loop of `ech_base64_decode` as it acts on the caller's
buffer (the strlen-region of `in`): each iteration writes a NUL over the
byte terminating the fragment and, when that byte was a separator inside the
buffer, moves on iff the fragment decoded (`dec` abstracts EVP_DecodeBlock
together with the padding check).  On a decode failure the function returns
with the mutations made so far. -/
def b64MutLoop (dec : List Nat → Bool) : Nat → List Nat → List Nat
  | 0, l => l
  | fuel + 1, l =>
      let f := strcspnSemi l
      if f < l.length then
        l.take f ++ [0] ++
          (if dec (l.take f) then b64MutLoop dec fuel (l.drop (f + 1))
           else l.drop (f + 1))
      else l

/-- The caller's buffer content after `ech_base64_decode` returns. -/
def ech_base64_decode_buffer (dec : List Nat → Bool) (l : List Nat) : List Nat :=
  b64MutLoop dec (l.length + 1) l

/-- `strstr(ekval, "ech=")`: index of the first occurrence of the telltale. -/
def findMarker : List Nat → Option Nat
  | [] => none
  | c :: rest =>
      if (c :: rest).take 4 = [101, 99, 104, 61] then some 0
      else match findMarker rest with
           | some i => some (i + 1)
           | none => none

/-- Input-format selector values of `local_ech_add`. -/
inductive EchFmt | bin | asciihex | b64txt | httpssvc
deriving DecidableEq, Repr

/-- The caller's buffer content after `local_ech_add` (hence after
`SSL_ech_add`/`SSL_CTX_ech_add`, which pass the caller's buffer through
unchanged): the base64 path decodes in place from the start of the buffer;
the HTTPS/SVCB path decodes in place from just after the `ech=` marker;
the ascii-hex and binary paths read without writing. -/
def local_ech_add_buffer (dec : List Nat → Bool) (fmt : EchFmt) (l : List Nat) :
    List Nat :=
  match fmt with
  | .b64txt => ech_base64_decode_buffer dec l
  | .httpssvc =>
      match findMarker l with
      | none => l
      | some p =>
          if l.length ≤ p + 4 then l
          else l.take (p + 4) ++ ech_base64_decode_buffer dec (l.drop (p + 4))
  | _ => l

/-! ### ech_calc_accept_confirm (lines 2987..3141) -/

/-- `memset(tbuf+chlen+shoffset,0,8)` with `shoffset = 6+24 = 30`. -/
def zero8At (l : List Nat) (off : Nat) : List Nat :=
  l.take off ++ [0, 0, 0, 0, 0, 0, 0, 0] ++ l.drop (off + 8)

/-- `ech_calc_accept_confirm`: build the transcript (inner CH then the
ServerHello; the server already has the 4-byte message header in `shbuf` but
rewrites its 3-byte length, the client prepends type 0x02 plus the length),
zero the 8 confirmation bytes, hash, HKDF-expand with the accept-confirmation
label, and emit the first 8 bytes.  `hash` and `hkdfExpand` abstract the EVP
digest and tls13_hkdf_expand collaborators. -/
def ech_calc_accept_confirm
    (hash : List Nat → List Nat)
    (hkdfExpand : List Nat → List Nat → List Nat → List Nat)
    (server : Bool) (secret ch shbuf : List Nat) : List Nat :=
  let tbuf :=
    if server then
      ch ++ ([shbuf.headD 0] ++ be24 (shbuf.length - 4) ++ shbuf.drop 4)
    else
      ch ++ ([2] ++ be24 shbuf.length ++ shbuf)
  let zbuf := zero8At tbuf (ch.length + 30)
  (hkdfExpand secret ECH_ACCEPT_CONFIRM_STRING (hash zbuf)).take 8

/-! ### Server-side key selection in ech_early_decrypt (lines 4167..4253) -/

/-- A stored server `SSL_ECH` as key selection sees it: the `config_id`s of
the ECHConfig records inside its `cfg` (`recIds.length` is `cfg->nrecs`). -/
structure SrvStoredECH where
  recIds : List Nat
deriving Repr, DecidableEq

def dummyECH : SrvStoredECH := ⟨[]⟩

/-- Outcome of the selection/decryption phase of `ech_early_decrypt`:
a fatal alert (`SSLfatal` and error return), the GREASE path (mark
`ECH_IS_GREASE` and return 1 with no alert), or decryption success. -/
inductive EarlyOutcome
  | fatalAlert
  | greaseReturn1
  | proceed (clear : List Nat)
deriving Repr, DecidableEq

/-- The config_id-matching loop: `for (cfgind=0; cfgind!=n0; cfgind++)`
comparing the received id against `s->ech[cfgind].cfg->recs[0].config_id`.
The second argument is the number of iterations left. -/
def matchCfgLoop (store : List SrvStoredECH) (rxid : Nat) : Nat → Nat → Option Nat
  | _, 0 => none
  | cfgind, c + 1 =>
      if (store.getD cfgind dummyECH).recIds.headD 0 = rxid then some cfgind
      else matchCfgLoop store rxid (cfgind + 1) c

/-- The trial-decryption loop: try `early_hpke_decrypt_encch` on
`&s->ech[cfgind]` for each iteration, stopping at the first success. -/
def trialLoop (opn : Nat → Option (List Nat)) : Nat → Nat → Option (List Nat)
  | _, 0 => none
  | cfgind, c + 1 =>
      match opn cfgind with
      | some clear => some clear
      | none => trialLoop opn (cfgind + 1) c

/-- The selection/decryption phase of `ech_early_decrypt` (after the ECH
extension has been parsed and the AAD built): both loops run
`s->ech->cfg->nrecs` iterations (the record count of the first stored key);
a config_id match is attempted once; trial decryption runs only when no
config_id matched and `SSL_OP_ECH_TRIALDECRYPT` is set; with no plaintext
the session is marked `ECH_IS_GREASE` and the function returns 1 without
raising an alert.  `opn cfgind` abstracts HPKE open under stored key
`cfgind`. -/
def ech_early_decrypt_select (opn : Nat → Option (List Nat))
    (store : List SrvStoredECH) (rxid : Nat) (trial : Bool) : EarlyOutcome :=
  let n0 := (store.headD dummyECH).recIds.length
  if n0 = 0 then .fatalAlert
  else
    let clear0 : Option (List Nat) :=
      match matchCfgLoop store rxid 0 n0 with
      | some cfgind => opn cfgind
      | none => if trial then trialLoop opn 0 n0 else none
    match clear0 with
    | none => .greaseReturn1
    | some clear => .proceed clear

/-! ### ClientHello extension blocks -/

/-- A ClientHello extension: a type and its value bytes. -/
structure Ext where
  etype : Nat
  val : List Nat
deriving Repr, DecidableEq

/-- Wire form of one extension: u16 type, u16 length, value. -/
def encExt (e : Ext) : List Nat := be16 e.etype ++ be16 e.val.length ++ e.val

/-- Wire form of an extension sequence. -/
def encExts (es : List Ext) : List Nat := (es.map encExt).flatten

/-! ### ech_encode_inner (lines 2459..2634) -/

/-- The single `outer_extensions` extension the encoder writes: u16 type
0xfd00, u16 length `2*n+1`, u8 `2*n`, then the compressed types. -/
def outerExtsRecord (outers : List Nat) : List Nat :=
  be16 TLSEXT_TYPE_outer_extensions ++ be16 (2 * outers.length + 1) ++
    [2 * outers.length % 256] ++ (outers.map be16).flatten

/-- The extension loop of `ech_encode_inner`: an extension whose type is in
`outers` is replaced (at its first occurrence only) by the single
outer_extensions record and otherwise omitted; other extensions are copied
through in order. -/
def encodeInnerExtsLoop (outers : List Nat) : List Ext → Bool → List Nat
  | [], _ => []
  | e :: rest, compression_done =>
      let tobecompressed := outers.contains e.etype
      (if tobecompressed && !compression_done then outerExtsRecord outers else []) ++
        (if tobecompressed then [] else encExt e) ++
        encodeInnerExtsLoop outers rest (compression_done || tobecompressed)

/-- `ech_encode_inner`: re-emit the inner ClientHello body with a zero-length
session id, the cipher-suite bytes, the null compression method and the
compressed extension block, with the handshake header stripped. -/
def ech_encode_inner (ver rnd suites : List Nat) (outers : List Nat)
    (exts : List Ext) : List Nat :=
  let extbytes := encodeInnerExtsLoop outers exts false
  ver ++ rnd ++ [0] ++ be16 suites.length ++ suites ++ [1, 0] ++
    be16 extbytes.length ++ extbytes

/-! ### ech_decode_inner (lines 2645..2911) -/

/-- Splicing the outer's session id into the encoded inner at offset 34. -/
def spliceSessId (enc sid : List Nat) : List Nat :=
  enc.take 34 ++ [sid.length] ++ sid ++ enc.drop 35

/-- The `while (!found && remaining>0)` scan looking for the
outer_extensions extension; returns its offset and value length. -/
def findOuters (buf : List Nat) : Nat → Nat → Nat → Option (Nat × Nat)
  | 0, _, _ => none
  | fuel + 1, pos, remaining =>
      if remaining = 0 then none
      else
        let etype := readU16 buf pos
        let elen := readU16 buf (pos + 2)
        if etype = TLSEXT_TYPE_outer_extensions then some (pos, elen)
        else findOuters buf fuel (pos + 4 + elen) (remaining - (elen + 4))

/-- The `for (iind=0;iind<n_outers;iind++)` match pass over one outer
extension: each index whose compressed type equals `etype` records the value
length and offset; the returned pair also carries the additions to
`tot_outer_lens` and `found_outers`. -/
def updateMatches (etype elen off : Nat) :
    List Nat → List (Nat × Nat) → (List (Nat × Nat) × Nat × Nat)
  | [], _ => ([], 0, 0)
  | _ :: _, [] => ([], 0, 0)
  | t :: ts, a :: acc =>
      let r := updateMatches etype elen off ts acc
      if t = etype then ((elen, off) :: r.1, r.2.1 + (elen + 4), r.2.2 + 1)
      else (a :: r.1, r.2.1, r.2.2)

/-- The `while (remaining>0)` scan over the outer ClientHello's extensions
collecting, for each compressed type, the matching size and offset. -/
def collectScan (buf : List Nat) (es : Nat) (outers : List Nat) :
    Nat → Nat → Nat → List (Nat × Nat) → Nat → Nat →
    (List (Nat × Nat) × Nat × Nat)
  | 0, _, _, acc, tot, found => (acc, tot, found)
  | fuel + 1, pos, remaining, acc, tot, found =>
      if remaining = 0 then (acc, tot, found)
      else
        let etype := readU16 buf pos
        let elen := readU16 buf (pos + 2)
        let r := updateMatches etype elen (pos - es) outers acc
        collectScan buf es outers fuel (pos + 4 + elen) (remaining - (elen + 4))
          r.1 (tot + r.2.1) (found + r.2.2)

/-- The splice pass writing, for each compressed type in order, u16 type,
u16 recorded size, then the recorded bytes from the outer's extensions. -/
def spliceOut (extsBytes : List Nat) : List Nat → List (Nat × Nat) → List Nat
  | [], _ => []
  | _ :: _, [] => []
  | t :: ts, (sz, off) :: assign =>
      be16 t ++ be16 sz ++ (extsBytes.drop (off + 4)).take sz ++
        spliceOut extsBytes ts assign

/-- `ech_decode_inner`: splice the saved session id into the decrypted
EncodedClientHelloInner, then either re-prepend the handshake header (no
outer_extensions present) or replace the outer_extensions record by the
referenced outer extensions and fix the extensions length.  `ob` is the
received outer ClientHello body and `outer_soe` the offset of its extensions
length field. -/
def ech_decode_inner (enc sid ob : List Nat) (outer_soe : Nat) :
    Option (List Nat) :=
  if enc.length = 0 then none
  else
    let idc := spliceSessId enc sid
    let idc_len := enc.length + sid.length
    let suiteslen := readU16 enc 35
    let startofexts := 34 + 1 + sid.length + 2 + suiteslen + 2
    if startofexts > idc_len then none
    else
      let remaining0 := readU16 idc startofexts
      match findOuters idc (remaining0 + 1) (startofexts + 2) remaining0 with
      | none => some ([1] ++ be24 idc_len ++ idc)
      | some (oneextstart, elen) =>
        let n_outers := elen / 2
        let slen := idc.getD (oneextstart + 4) 0
        if n_outers ≠ slen / 2 then none
        else if n_outers = 0 ∨ n_outers > ECH_OUTERS_MAX then none
        else
          let outers := (List.range n_outers).map
            (fun i => readU16 idc (oneextstart + 5 + 2 * i))
          let ebs := outer_soe + 2
          let exts_len := ob.length - ebs
          let r := collectScan ob ebs outers (exts_len + 1) ebs exts_len
            (List.replicate n_outers (0, 0)) 0 0
          if r.2.2 ≠ n_outers then none
          else
            let outer_exts_len := 5 + 2 * n_outers
            let final_len := 4 + idc_len - outer_exts_len + r.2.1
            let body := idc.take oneextstart ++
              spliceOut (ob.drop ebs) outers r.1 ++
              ((idc.drop (oneextstart + outer_exts_len)).take
                (idc_len - oneextstart - outer_exts_len))
            let fd := [1] ++ be24 (final_len - 4) ++ body
            let initial_extslen := readU16 fd (startofexts + 4)
            let final_extslen := initial_extslen + r.2.1 - outer_exts_len
            some ((fd.set (startofexts + 4) (final_extslen % 65536 / 256)).set
              (startofexts + 5) (final_extslen % 256))

/-! ### ech_get_offsets (lines 3771..3847) -/

/-- The extension scan of `ech_get_offsets`, recording the offsets of the
(last) ECH and server_name extensions. -/
def getOffsetsScan (ch : List Nat) : Nat → Nat → Nat → Nat → Nat → (Nat × Nat)
  | 0, _, _, echoff, snioff => (echoff, snioff)
  | fuel + 1, pos, remaining, echoff, snioff =>
      if remaining = 0 then (echoff, snioff)
      else
        let etype := readU16 ch pos
        let elen := readU16 ch (pos + 2)
        let echoff2 := if etype = TLSEXT_TYPE_ech then pos else echoff
        let snioff2 := if etype = TLSEXT_TYPE_server_name then pos else snioff
        getOffsetsScan ch fuel (pos + 4 + elen) (remaining - (4 + elen)) echoff2 snioff2

/-- `ech_get_offsets`: without fully parsing the ClientHello body `ch`,
compute the offsets of the session id, the extensions length field, the ECH
extension and the outer SNI (0 when absent). -/
def ech_get_offsets (ch : List Nat) : Option (Nat × Nat × Nat × Nat) :=
  let sessid := 2 + 32
  let sessid_len := ch.getD sessid 0
  let genoffset := sessid + 1 + sessid_len
  let suiteslen := readU16 ch genoffset
  let startofexts := genoffset + suiteslen + 2 + 2
  if startofexts = ch.length then some (sessid, 0, 0, 0)
  else if startofexts > ch.length then none
  else
    let origextlens := readU16 ch startofexts
    if startofexts + 2 > ch.length - startofexts then none
    else
      let r := getOffsetsScan ch (origextlens + 1) (startofexts + 2)
        (origextlens - 2) 0 0
      some (sessid, startofexts, r.1, r.2)

/-! ### AAD construction: client (lines 3614..3699) and server
(lines 3710..3754 and 4129..4161) -/

/-- The AAD assembled by `ech_aad_and_encrypt` before sealing: suite ids,
config id, length-prefixed ephemeral public key, then the 24-bit-length
prefixed outer ClientHello body as built so far (the message minus its 4-byte
handshake header, before the ECH extension is appended). -/
def ech_aad_and_encrypt_aad (kdf aead cid : Nat) (mypub : List Nat)
    (msg : List Nat) : List Nat :=
  be16 kdf ++ be16 aead ++ [cid % 256] ++ be16 mypub.length ++ mypub ++
    be24 (msg.length - 4) ++ msg.drop 4

/-- The ECH extension bytes appended by `ech_aad_and_encrypt`: u16 type,
u16 length, u16 kdf, u16 aead, u8 config id, length-prefixed public share,
length-prefixed ciphertext. -/
def echExtBytes (kdf aead cid : Nat) (mypub cipher : List Nat) : List Nat :=
  be16 TLSEXT_TYPE_ech ++ be16 (9 + mypub.length + cipher.length) ++
    be16 kdf ++ be16 aead ++ [cid % 256] ++ be16 mypub.length ++ mypub ++
    be16 cipher.length ++ cipher

/-- The tail of `ech_aad_and_encrypt`: append the ECH extension to the
message and rewrite the extensions length field in place (offsets are found
from the session id length and the cipher-suites length bytes). -/
def ech_aad_and_encrypt_splice (sidlen : Nat) (msg ech : List Nat) : List Nat :=
  let m := msg ++ ech
  let genoffset := 6 + 32 + 1 + sidlen
  let suiteslen := readU16 m genoffset
  let startofexts := genoffset + suiteslen + 2 + 2
  let newextlens := readU16 m startofexts + ech.length
  (m.set startofexts (newextlens % 65536 / 256)).set (startofexts + 1)
    (newextlens % 65536 % 256)

/-- The parsed ClientECH extension value (`ECH_ENCCH`). -/
structure ECH_ENCCH where
  kdf_id : Nat
  aead_id : Nat
  config_id : Nat
  enc : List Nat
  payload : List Nat
deriving Repr, DecidableEq

/-- The ClientECH parse in `ech_early_decrypt` (lines 4043..4127): suite ids,
config id, then the length-prefixed `enc` (at most 1024 octets) and
`payload` (at most 16k octets), all within the extension value
`[pos, endp)`. -/
def parseClientECH (ch : List Nat) (pos endp : Nat) : Option ECH_ENCCH :=
  if pos + 2 ≤ endp then
    let kdf := readU16 ch pos
    if pos + 4 ≤ endp then
      let aead := readU16 ch (pos + 2)
      if pos + 5 ≤ endp then
        let cid := ch.getD (pos + 4) 0
        if pos + 7 ≤ endp then
          let enclen := readU16 ch (pos + 5)
          if enclen > MAX_ECH_ENC_LEN then none
          else if enclen > endp - (pos + 7) then none
          else
            let p2 := pos + 7 + enclen
            if p2 + 2 ≤ endp then
              let paylen := readU16 ch p2
              if paylen > MAX_ECH_PAYLOAD_LEN then none
              else if paylen > endp - (p2 + 2) then none
              else some { kdf_id := kdf, aead_id := aead, config_id := cid,
                          enc := (ch.drop (pos + 7)).take enclen,
                          payload := (ch.drop (p2 + 2)).take paylen }
            else none
        else none
      else none
    else none
  else none

/-- The in-place reconstruction of the outer ClientHello body without its ECH
extension (lines 4138..4147): copy up to the extensions length field, write
the reduced length, copy the extensions before the ECH, then the bytes after
it, and truncate to `ch_len - echlen - 4`. -/
def ech_recon_de (ch : List Nat) (startofexts echoffset echlen : Nat) : List Nat :=
  let ch_len := ch.length
  let newextlens := ch_len - echlen - startofexts - 6
  let beforeECH := echoffset - startofexts - 2
  let afterECH := ch_len - (echoffset + echlen)
  let de_len := ch_len - echlen - 4
  (ch.take startofexts ++ [newextlens % 65536 / 256, newextlens % 65536 % 256] ++
    (ch.drop (startofexts + 2)).take beforeECH ++
    (ch.drop (startofexts + 2 + beforeECH + echlen)).take afterECH).take de_len

/-- `ech_srv_get_aad`: the same AAD layout as the client writes, guarded by
the caller's buffer size (the CPCHECK macro). -/
def ech_srv_get_aad (maxlen : Nat) (kdf aead : Nat) (pub : List Nat)
    (cid : Nat) (de : List Nat) : Option (List Nat) :=
  let out := be16 kdf ++ be16 aead ++ [cid % 256] ++ be16 pub.length ++ pub ++
    be24 de.length ++ de
  if out.length ≤ maxlen then some out else none

/-- The AAD-reconstruction phase of `ech_early_decrypt` (lines 3986..4161):
find the offsets, require an ECH extension and a legal session id length,
parse the ClientECH value, rebuild the ClientHello body without the ECH
extension and hand everything to `ech_srv_get_aad`. -/
def ech_early_decrypt_srv_aad (maxlen : Nat) (ch : List Nat) :
    Option (List Nat) :=
  match ech_get_offsets ch with
  | none => none
  | some (startofsessid, startofexts, echoffset, _) =>
      if echoffset = 0 then none
      else if ch.getD startofsessid 0 > SSL_MAX_SSL_SESSION_ID_LENGTH then none
      else
        let echlen := readU16 ch (echoffset + 2)
        match parseClientECH ch (echoffset + 4) (echoffset + 4 + echlen) with
        | none => none
        | some ev =>
            let de := ech_recon_de ch startofexts echoffset echlen
            ech_srv_get_aad maxlen ev.kdf_id ev.aead_id ev.enc ev.config_id de

/-! ### Specification helpers (used only to state properties of the scans) -/

/-- The ClientECH extension value written by the client (everything after
the extension type and length in `echExtBytes`). -/
def echExtVal (kdf aead cid : Nat) (mypub cipher : List Nat) : List Nat :=
  be16 kdf ++ be16 aead ++ [cid % 256] ++ be16 mypub.length ++ mypub ++
    be16 cipher.length ++ cipher

/-- What the `ech_get_offsets` scan computes over a well-formed extension
sequence: the positions of the (last) ECH and server_name extensions. -/
def offsetsSpec : List Ext → Nat → Nat × Nat → Nat × Nat
  | [], _, acc => acc
  | e :: rest, pos, (e0, s0) =>
      offsetsSpec rest (pos + 4 + e.val.length)
        ((if e.etype = TLSEXT_TYPE_ech then pos else e0),
         (if e.etype = TLSEXT_TYPE_server_name then pos else s0))

/-! ### Concrete vectors used by counterexamples and witnesses -/

/-- A straddling input: declared total length 10, one draft-10 config of
19+4 = 23 octets, then two trailing octets. -/
def c7bytes : List Nat :=
  [0, 10, 0xfe, 0x0a, 0, 19, 7, 0, 32, 0, 0, 0, 4, 0, 1, 0, 1, 0, 64, 0, 2,
   120, 121, 0, 0, 9, 9]

/-- A minimal draft-10 config body of content length 19 (version and length
prepended), with the given config id. -/
def c4cfgbody (cid : Nat) : List Nat :=
  [0xfe, 0x0a, 0, 19, cid, 0, 32, 0, 0, 0, 4, 0, 1, 0, 1, 0, 64, 0, 2,
   120, 121, 0, 0]

/-- A two-config ECHConfigList: total length 46, two 23-octet configs. -/
def c4bytes : List Nat := [0, 46] ++ c4cfgbody 7 ++ c4cfgbody 8

/-- The decoded form of one `c4cfgbody` config. -/
def c4rec (cid start : Nat) : ECHConfig :=
  { version := ECH_DRAFT_10_VERSION, config_id := cid, kem_id := 32, pub := [],
    ciphersuites := [[0, 1, 0, 1]], maximum_name_length := 64,
    public_name := [120, 121, 0], exts := [], encoding_start := start,
    encoding_length := 46 }

/-- The decoded form of one `c4cfgbody` config inside a single-config list of
declared total length 23. -/
def c4rec23 (cid start : Nat) : ECHConfig :=
  { version := ECH_DRAFT_10_VERSION, config_id := cid, kem_id := 32, pub := [],
    ciphersuites := [[0, 1, 0, 1]], maximum_name_length := 64,
    public_name := [120, 121, 0], exts := [], encoding_start := start,
    encoding_length := 23 }

/-- Key selection vectors: two stored keys with config ids 0x11 and 0x22;
HPKE open succeeds only under the second stored key. -/
def c2store : List SrvStoredECH := [⟨[0x11]⟩, ⟨[0x22]⟩]

def c2opn : Nat → Option (List Nat) := fun i => if i = 1 then some [1, 2, 3] else none

/-- Inner-encoding vectors: three extensions, of which the first and third
(non-contiguous) are compressed. -/
def c1rnd : List Nat := List.replicate 32 170

def c1exts : List Ext := [⟨1, [10]⟩, ⟨2, [11]⟩, ⟨3, [12]⟩]

def c1enc : List Nat := ech_encode_inner [3, 3] c1rnd [0, 47] [1, 3] c1exts

/-- An outer ClientHello extensions block carrying the compressed types. -/
def c1ob : List Nat := [0, 0] ++ encExts [⟨1, [10]⟩, ⟨3, [12]⟩]

/-- The original inner ClientHello (header, then body with session id
spliced back). -/
def c1orig : List Nat :=
  let body := [3, 3] ++ c1rnd ++ [2] ++ [1, 2] ++ be16 2 ++ [0, 47] ++ [1, 0] ++
    be16 (encExts c1exts).length ++ encExts c1exts
  [1] ++ be24 body.length ++ body

/-- What decoding actually produces: the compressed extensions spliced as a
block at the position of the first compressed one. -/
def c1reordered : List Nat :=
  let es := encExts [⟨1, [10]⟩, ⟨3, [12]⟩, ⟨2, [11]⟩]
  let body := [3, 3] ++ c1rnd ++ [2] ++ [1, 2] ++ be16 2 ++ [0, 47] ++ [1, 0] ++
    be16 es.length ++ es
  [1] ++ be24 body.length ++ body

/-- AAD vectors: an outer ClientHello message (header, empty session id, one
two-byte suite list, no extensions yet) and an ECH extension for it. -/
def c3msg0 : List Nat :=
  [1, 0, 0, 0] ++ [3, 3] ++ List.replicate 32 7 ++ [0] ++ be16 2 ++ [0, 0] ++
    [1, 0] ++ be16 0

def c3E : List Nat := echExtBytes 1 1 9 [] (List.replicate 30 5)

/-- Specification helper: the (size, offset) records `collectScan` builds for
a run of extensions laid out contiguously from byte offset `off` of the
outer's extensions block. -/
def assignOf : List Ext → Nat → List (Nat × Nat)
  | [], _ => []
  | e :: rest, off => (e.val.length, off) :: assignOf rest (off + 4 + e.val.length)

/-! ## Helper lemmas -/

theorem getD_append_right (l1 l2 : List Nat) (n d : Nat) :
    (l1 ++ l2).getD (l1.length + n) d = l2.getD n d := by
  simp [List.getD, List.getElem?_append_right]

theorem getD_append_left (l1 l2 : List Nat) (n d : Nat) (h : n < l1.length) :
    (l1 ++ l2).getD n d = l1.getD n d := by
  simp [List.getD, List.getElem?_append_left h]

@[simp] theorem be16_length (n : Nat) : (be16 n).length = 2 := rfl

@[simp] theorem be24_length (n : Nat) : (be24 n).length = 3 := rfl

theorem take_at (pre l2 : List Nat) (i : Nat) (h : i = pre.length) :
    (pre ++ l2).take i = pre :=
  List.take_left' h.symm

theorem drop_at (pre l2 : List Nat) (i : Nat) (h : i = pre.length) :
    (pre ++ l2).drop i = l2 :=
  List.drop_left' h.symm

theorem getD_at (pre : List Nat) (a : Nat) (l2 : List Nat) (i d : Nat)
    (h : i = pre.length) : (pre ++ a :: l2).getD i d = a := by
  subst h
  have := getD_append_right pre (a :: l2) 0 d
  simpa using this

theorem readU16_at (pre l2 : List Nat) (i : Nat) (h : i = pre.length) :
    readU16 (pre ++ l2) i = readU16 l2 0 := by
  subst h
  unfold readU16
  have h1 := getD_append_right pre l2 0 0
  have h2 := getD_append_right pre l2 1 0
  simp only [Nat.add_zero] at h1
  rw [h1, h2]

theorem readU16_at2 (pre : List Nat) (a b : Nat) (l2 : List Nat) (i : Nat)
    (h : i = pre.length) : readU16 (pre ++ a :: b :: l2) i = a * 256 + b := by
  rw [readU16_at pre (a :: b :: l2) i h]
  rfl

theorem readU16_be16 (n : Nat) (l : List Nat) (h : n < 65536) :
    readU16 (be16 n ++ l) 0 = n := by
  show (n / 256 % 256) * 256 + n % 256 = n
  omega

theorem set_at (pre : List Nat) (a : Nat) (l2 : List Nat) (i v : Nat)
    (h : i = pre.length) : (pre ++ a :: l2).set i v = pre ++ v :: l2 := by
  subst h
  rw [List.set_append_right _ _ (Nat.le_refl pre.length)]
  simp

theorem zero8At_append (l1 l2 : List Nat) (n : Nat) :
    zero8At (l1 ++ l2) (l1.length + n) = l1 ++ zero8At l2 n := by
  unfold zero8At
  rw [List.take_append_eq_append_take, List.drop_append_eq_append_drop]
  have h1 : l1.length + n - l1.length = n := by omega
  have h2 : l1.length + n + 8 - l1.length = n + 8 := by omega
  rw [List.take_of_length_le (by omega), List.drop_eq_nil_of_le (by omega), h1, h2]
  simp

/-! ## Claim theorems -/

/-! ### C8: SSL_CTX_ech_server_flush_keys -/

theorem flushLoop_eq_filter (now age : Int) (l : List SSLECHEntry) :
    flushLoop now age l = l.filter (fun e => decide (now < e.loadtime + age)) := by
  induction l with
  | nil => rfl
  | cons e rest ih =>
      by_cases h : e.loadtime + age ≤ now
      · rw [flushLoop, if_pos h, List.filter_cons_of_neg (by simpa using h), ih]
      · rw [flushLoop, if_neg h, List.filter_cons_of_pos (by simpa using lt_of_not_le h), ih]

/-- C8 counterexample: with `now = 100`, `age = 50`, a key loaded at time 50
(exactly `age` seconds before the call, hence not loaded "more than age
seconds before") is nevertheless removed by the code. -/
theorem flush_boundary_counterexample :
    SSL_CTX_ech_server_flush_keys 100 50 [⟨50, 0⟩] = []
    ∧ ¬((100 : Int) - 50 > 50) := by
  constructor
  · rfl
  · decide

/-- C8 (amended): `SSL_CTX_ech_server_flush_keys(age)` removes exactly those
keys loaded at least `age` seconds before the call (`loadtime + age ≤ now`)
and keeps all others in their original relative order; `age ≤ 0` empties the
store; if every key is younger than `age` the store is unchanged. -/
theorem flush_keys_characterization (now age : Int) (store : List SSLECHEntry) :
    (SSL_CTX_ech_server_flush_keys now age store).Sublist store
    ∧ (age ≤ 0 → SSL_CTX_ech_server_flush_keys now age store = [])
    ∧ (0 < age → SSL_CTX_ech_server_flush_keys now age store
        = store.filter (fun e => decide (now < e.loadtime + age)))
    ∧ (0 < age → (∀ e ∈ store, now < e.loadtime + age) →
        SSL_CTX_ech_server_flush_keys now age store = store) := by
  refine ⟨?_, ?_, ?_, ?_⟩
  · unfold SSL_CTX_ech_server_flush_keys
    by_cases h : age ≤ 0
    · rw [if_pos h]; exact List.nil_sublist store
    · rw [if_neg h, flushLoop_eq_filter]; exact List.filter_sublist store
  · intro h; unfold SSL_CTX_ech_server_flush_keys; rw [if_pos h]
  · intro h
    unfold SSL_CTX_ech_server_flush_keys
    rw [if_neg (by omega), flushLoop_eq_filter]
  · intro h hall
    unfold SSL_CTX_ech_server_flush_keys
    rw [if_neg (by omega), flushLoop_eq_filter]
    exact List.filter_eq_self.mpr (fun e he => by simpa using hall e he)

/-- Witness for C8 at the spec's own S6 scenario: keys loaded at times 100,
200, 300; flush at time 310 with age 100 keeps exactly the key loaded at
300. -/
theorem flush_keys_characterization_witness :
    SSL_CTX_ech_server_flush_keys 310 100 [⟨100, 0⟩, ⟨200, 1⟩, ⟨300, 2⟩]
      = List.filter (fun e => decide ((310 : Int) < e.loadtime + 100))
          [⟨100, 0⟩, ⟨200, 1⟩, ⟨300, 2⟩] :=
  (flush_keys_characterization 310 100 [⟨100, 0⟩, ⟨200, 1⟩, ⟨300, 2⟩]).2.2.1
    (by decide)

/-! ### C10: buffer mutation by the add operations -/

theorem strcspnSemi_le (l : List Nat) : strcspnSemi l ≤ l.length := by
  induction l with
  | nil => exact Nat.le_refl 0
  | cons c rest ih =>
      rw [strcspnSemi]
      by_cases h : c = 59
      · rw [if_pos h]; exact Nat.zero_le _
      · rw [if_neg h]; simp only [List.length_cons]; omega

theorem strcspnSemi_take (l : List Nat) : ∀ x ∈ l.take (strcspnSemi l), x ≠ 59 := by
  induction l with
  | nil => intro x hx; simp at hx
  | cons c rest ih =>
      rw [strcspnSemi]
      by_cases h : c = 59
      · rw [if_pos h]; intro x hx; simp at hx
      · rw [if_neg h]
        intro x hx
        rw [Nat.add_comm, List.take_succ_cons] at hx
        rcases List.mem_cons.mp hx with h1 | h1
        · subst h1; exact h
        · exact ih x h1

theorem strcspnSemi_getD (l : List Nat) (h : 59 ∈ l) :
    strcspnSemi l < l.length ∧ l.getD (strcspnSemi l) 0 = 59 := by
  induction l with
  | nil => simp at h
  | cons c rest ih =>
      rw [strcspnSemi]
      by_cases hc : c = 59
      · rw [if_pos hc]
        exact ⟨Nat.succ_pos _, by simpa using hc⟩
      · rw [if_neg hc]
        have hr : 59 ∈ rest := by
          rcases List.mem_cons.mp h with h1 | h1
          · exact absurd h1.symm hc
          · exact h1
        rcases ih hr with ⟨h1, h2⟩
        refine ⟨by simp only [List.length_cons]; omega, ?_⟩
        rw [Nat.add_comm]
        simpa using h2

theorem take_getD_drop (l : List Nat) (n : Nat) (h : n < l.length) :
    l.take n ++ l.getD n 0 :: l.drop (n + 1) = l := by
  induction l generalizing n with
  | nil => simp at h
  | cons c rest ih =>
      cases n with
      | zero => simp [List.getD]
      | succ m =>
          simp only [List.take_succ_cons, List.drop_succ_cons, List.getD_cons_succ,
            List.cons_append]
          rw [ih m (by simpa using h)]

theorem map_semi_eq_self (l : List Nat) (h : ∀ x ∈ l, x ≠ 59) :
    l.map (fun b => if b = 59 then 0 else b) = l := by
  induction l with
  | nil => rfl
  | cons c rest ih =>
      rw [List.map_cons, if_neg (h c (List.mem_cons_self c rest)),
        ih (fun x hx => h x (List.mem_cons_of_mem c hx))]

theorem b64MutLoop_ne (dec : List Nat → Bool) (fuel : Nat) (l : List Nat)
    (h : 59 ∈ l) : b64MutLoop dec (fuel + 1) l ≠ l := by
  rcases strcspnSemi_getD l h with ⟨hlt, hat⟩
  rw [b64MutLoop, if_pos hlt]
  intro heq
  have hgd : (l.take (strcspnSemi l) ++ [0] ++
      (if dec (l.take (strcspnSemi l)) then
        b64MutLoop dec fuel (l.drop (strcspnSemi l + 1))
       else l.drop (strcspnSemi l + 1))).getD (strcspnSemi l) 0 = 0 := by
    rw [List.append_assoc]
    exact getD_at _ 0 _ _ _ (by simp [List.length_take, Nat.min_eq_left (Nat.le_of_lt hlt)])
  rw [heq, hat] at hgd
  exact absurd hgd (by decide)

theorem strcspnSemi_lt_getD (l : List Nat) (h : strcspnSemi l < l.length) :
    l.getD (strcspnSemi l) 0 = 59 := by
  induction l with
  | nil => simp at h
  | cons c rest ih =>
      rw [strcspnSemi] at h ⊢
      by_cases hc : c = 59
      · rw [if_pos hc]; simpa using hc
      · rw [if_neg hc] at h ⊢
        rw [Nat.add_comm]
        exact ih (by simp only [List.length_cons] at h; omega)

theorem b64MutLoop_map (dec : List Nat → Bool) (hdec : ∀ m, dec m = true) :
    ∀ fuel l, l.length < fuel →
      b64MutLoop dec fuel l = l.map (fun b => if b = 59 then 0 else b) := by
  intro fuel
  induction fuel with
  | zero => intro l hl; simp at hl
  | succ f ih =>
      intro l hl
      rw [b64MutLoop]
      by_cases hlt : strcspnSemi l < l.length
      · rw [if_pos hlt, hdec, if_pos rfl]
        have hd : (l.drop (strcspnSemi l + 1)).length < f := by
          rw [List.length_drop]; omega
        rw [ih _ hd]
        have hgd := strcspnSemi_lt_getD l hlt
        conv_rhs => rw [← take_getD_drop l (strcspnSemi l) hlt]
        rw [List.map_append, List.map_cons, hgd,
          map_semi_eq_self _ (strcspnSemi_take l), if_pos rfl]
        simp
      · rw [if_neg hlt]
        have heq2 : strcspnSemi l = l.length :=
          Nat.le_antisymm (strcspnSemi_le l) (Nat.le_of_not_lt hlt)
        have hall : ∀ x ∈ l, x ≠ 59 := by
          intro x hx
          have hx2 : x ∈ l.take (strcspnSemi l) := by
            rw [heq2, List.take_length]; exact hx
          exact strcspnSemi_take l x hx2
        rw [map_semi_eq_self l hall]

/-- C10: for every base64-form input containing a semicolon separator the add
operations (SSL_ech_add / SSL_CTX_ech_add via local_ech_add and
ech_base64_decode) overwrite separator bytes of the caller's buffer with NUL,
so the buffer is not left unchanged; when every fragment decodes, every
separator is overwritten; the same holds for the region after the `ech=`
marker of an HTTPS/SVCB input. -/
theorem add_buffer_mutation (dec : List Nat → Bool) (l : List Nat) :
    (59 ∈ l → local_ech_add_buffer dec .b64txt l ≠ l)
    ∧ ((∀ m, dec m = true) →
        local_ech_add_buffer dec .b64txt l
          = l.map (fun b => if b = 59 then 0 else b))
    ∧ (∀ p, findMarker l = some p → p + 4 < l.length → 59 ∈ l.drop (p + 4) →
        local_ech_add_buffer dec .httpssvc l ≠ l) := by
  refine ⟨?_, ?_, ?_⟩
  · intro h
    show ech_base64_decode_buffer dec l ≠ l
    unfold ech_base64_decode_buffer
    exact b64MutLoop_ne dec l.length l h
  · intro hdec
    show ech_base64_decode_buffer dec l = _
    unfold ech_base64_decode_buffer
    exact b64MutLoop_map dec hdec (l.length + 1) l (Nat.lt_succ_self _)
  · intro p hp hlen hmem
    show (match findMarker l with
      | none => l
      | some p => if l.length ≤ p + 4 then l
          else l.take (p + 4) ++ ech_base64_decode_buffer dec (l.drop (p + 4))) ≠ l
    rw [hp]
    simp only [if_neg (Nat.not_le_of_lt hlen)]
    intro heq
    have hlen2 : (l.take (p + 4)).length = p + 4 :=
      List.length_take_of_le (Nat.le_of_lt hlen)
    have hdrop : (l.take (p + 4) ++
        ech_base64_decode_buffer dec (l.drop (p + 4))).drop (p + 4)
        = ech_base64_decode_buffer dec (l.drop (p + 4)) :=
      drop_at _ _ _ hlen2.symm
    have : ech_base64_decode_buffer dec (l.drop (p + 4)) = l.drop (p + 4) := by
      rw [← hdrop, heq]
    exact absurd this (b64MutLoop_ne dec _ _ hmem)

/-- Witness for C10: the buffer "A;B" (65,59,66) is mutated in place to
(65,0,66). -/
theorem add_buffer_mutation_witness :
    local_ech_add_buffer (fun _ => true) .b64txt [65, 59, 66] = [65, 0, 66]
    ∧ local_ech_add_buffer (fun _ => true) .b64txt [65, 59, 66] ≠ [65, 59, 66] := by
  constructor
  · have h := (add_buffer_mutation (fun _ => true) [65, 59, 66]).2.1 (fun m => rfl)
    simpa using h
  · exact (add_buffer_mutation (fun _ => true) [65, 59, 66]).1 (by decide)

/-! ### C5: ech_calc_accept_confirm -/

/-- C5: the 8-byte accept confirmation is
`HKDF-Expand-Label(handshake_secret, "ech accept confirmation",
Hash(innerCH . SH-with-zeroed-random-tail))` truncated to 8 bytes — a
deterministic function of the handshake secret, the inner ClientHello and
the header-prefixed ServerHello with bytes [30,38) zeroed — and the server
path (header-prefixed ServerHello with whatever 3 length bytes, fixed up in
place) agrees with the client path (bare ServerHello body). -/
theorem accept_confirm_paths (hash : List Nat → List Nat)
    (hkdfExpand : List Nat → List Nat → List Nat → List Nat)
    (secret ch body j : List Nat) (hj : j.length = 3) :
    ech_calc_accept_confirm hash hkdfExpand true secret ch ([2] ++ j ++ body)
      = ech_calc_accept_confirm hash hkdfExpand false secret ch body
    ∧ ech_calc_accept_confirm hash hkdfExpand false secret ch body
      = (hkdfExpand secret ECH_ACCEPT_CONFIRM_STRING
          (hash (ch ++ zero8At ([2] ++ be24 body.length ++ body) 30))).take 8 := by
  have hlen : ([2] ++ j ++ body).length = 4 + body.length := by
    simp [hj]; omega
  have hdrop : ([2] ++ j ++ body).drop 4 = body :=
    drop_at ([2] ++ j) body 4 (by simp [hj])
  have hhead : ([2] ++ j ++ body).headD 0 = 2 := rfl
  have h4 : 4 + body.length - 4 = body.length := by omega
  constructor
  · simp only [ech_calc_accept_confirm, if_true, Bool.false_eq_true, if_false,
      hlen, hdrop, hhead, h4]
  · simp only [ech_calc_accept_confirm, Bool.false_eq_true, if_false,
      zero8At_append ch ([2] ++ be24 body.length ++ body) 30]

/-- Witness for C5 at a concrete transcript. -/
theorem accept_confirm_paths_witness :
    ech_calc_accept_confirm (fun t => t) (fun _ _ h => h) true
        [0, 0] [7, 7] ([2] ++ [9, 9, 9] ++ List.replicate 40 1)
      = ech_calc_accept_confirm (fun t => t) (fun _ _ h => h) false
        [0, 0] [7, 7] (List.replicate 40 1) :=
  (accept_confirm_paths (fun t => t) (fun _ _ h => h) [0, 0] [7, 7]
    (List.replicate 40 1) [9, 9, 9] rfl).1

/-! ### C2: key selection in ech_early_decrypt -/

/-- C2: the code does not iterate the stored keys: both the config_id match
loop and the trial-decryption loop run `s->ech->cfg->nrecs` iterations (the
record count of the FIRST stored key, which is 1 for server stores), so with
two stored keys, a received config_id equal to the second key's id and trial
decryption enabled, the second key is never examined and the session is
marked GREASE even though decryption under that key would succeed (the
grease path itself does return 1 without an alert, as the claim says). -/
theorem early_decrypt_skips_second_key :
    ech_early_decrypt_select c2opn c2store 0x22 true = .greaseReturn1
    ∧ (c2store.getD 1 dummyECH).recIds.headD 0 = 0x22
    ∧ c2opn 1 = some [1, 2, 3]
    ∧ c2store.length = 2
    ∧ (c2store.getD 0 dummyECH).recIds.length = 1 := by
  refine ⟨rfl, rfl, rfl, rfl, rfl⟩

/-! ### C6: the ciphersuites list parse -/

theorem copySuites_spec : ∀ l : List Nat,
    (copySuites l).2.length = l.length % 4 ∧ (copySuites l).1.length = l.length / 4 := by
  intro l
  induction l using copySuites.induct with
  | case1 a b c d rest ih =>
      rcases ih with ⟨ih1, ih2⟩
      constructor
      · show (copySuites rest).2.length = _
        rw [ih1]; simp only [List.length_cons]; omega
      · show (copySuites rest).1.length + 1 = _
        rw [ih2]; simp only [List.length_cons]; omega
  | case2 l hne =>
      have hcs : copySuites l = ([], l) ∧ l.length < 4 := by
        rcases l with _ | ⟨a, _ | ⟨b, _ | ⟨c, _ | ⟨d, rest⟩⟩⟩⟩
        · exact ⟨rfl, by simp⟩
        · exact ⟨rfl, by simp⟩
        · exact ⟨rfl, by simp only [List.length_cons, List.length_nil]; omega⟩
        · exact ⟨rfl, by simp only [List.length_cons, List.length_nil]; omega⟩
        · exact (hne a b c d rest rfl).elim
      rw [hcs.1]
      constructor
      · simp [Nat.mod_eq_of_lt hcs.2]
      · simp [Nat.div_eq_of_lt hcs.2]

/-- C6: in the ECHConfig binary decode (the ciphersuites sub-parse shared by
the draft-09 and draft-10 bodies) a suites payload is accepted exactly when
its octet length is a positive multiple of 4 — the vacuous `% 1` check is
compensated by the trailing-remainder check after the 4-byte copy loop — and
an accepted payload yields exactly `suiteoctets / 4` suites. -/
theorem suites_characterization (sub : List Nat) :
    ((parseSuites sub).isSome = true ↔ 0 < sub.length ∧ sub.length % 4 = 0)
    ∧ ∀ ls, parseSuites sub = some ls → ls.length = sub.length / 4 := by
  rcases copySuites_spec sub with ⟨h2, h1⟩
  unfold parseSuites
  simp only [Nat.mod_one]
  by_cases h0 : sub.length = 0
  · rw [if_pos (by omega)]
    constructor
    · constructor
      · intro h; exact absurd h (by simp)
      · intro h; omega
    · intro ls h; exact absurd h (by simp)
  · rw [if_neg (by omega)]
    by_cases hr : (copySuites sub).2.length > 0
    · rw [if_pos hr]
      constructor
      · constructor
        · intro h; exact absurd h (by simp)
        · intro h; omega
      · intro ls h; exact absurd h (by simp)
    · rw [if_neg hr]
      constructor
      · constructor
        · intro _; omega
        · intro _; simp
      · intro ls h
        have : ls = (copySuites sub).1 := by
          have := Option.some.inj h; exact this.symm
        rw [this, h1]

/-- Witness for C6: the 4-octet payload (0,1,0,1) yields one suite. -/
theorem suites_characterization_witness :
    (parseSuites [0, 1, 0, 1]).isSome = true
    ∧ ([[0, 1, 0, 1]] : List (List Nat)).length = ([0, 1, 0, 1] : List Nat).length / 4 := by
  constructor
  · exact (suites_characterization [0, 1, 0, 1]).1.mpr (by decide)
  · exact (suites_characterization [0, 1, 0, 1]).2 [[0, 1, 0, 1]] (by decide)

/-! ### C9: the public_name parse -/

/-- C9: the ECHConfig binary decode accepts a public_name exactly when its
declared length is greater than 1 and at most 255, and stores the accepted
name as a NUL-terminated copy of the `public_name_len` wire bytes. -/
theorem public_name_characterization (buf : List Nat) (pos : Nat)
    (hb : pos + 2 + readU16 buf pos ≤ buf.length) :
    parsePublicName buf pos =
      (if 1 < readU16 buf pos ∧ readU16 buf pos ≤ TLSEXT_MAXLEN_host_name
       then some ((buf.drop (pos + 2)).take (readU16 buf pos) ++ [0],
                  pos + 2 + readU16 buf pos)
       else none) := by
  have hlp : pktLP2 buf pos
      = some (pos + 2, readU16 buf pos, pos + 2 + readU16 buf pos) := by
    show (match pktGet2 buf pos with
      | none => none
      | some (len, p) =>
          if p + len ≤ buf.length then some (p, len, p + len) else none) = _
    rw [show pktGet2 buf pos = some (readU16 buf pos, pos + 2) from by
      unfold pktGet2; rw [if_pos (by omega)]]
    show (if pos + 2 + readU16 buf pos ≤ buf.length then
        some (pos + 2, readU16 buf pos, pos + 2 + readU16 buf pos) else none) = _
    rw [if_pos hb]
  show (match pktLP2 buf pos with
    | none => none
    | some (p, len, newpos) =>
        if len ≤ 1 ∨ len > TLSEXT_MAXLEN_host_name then none
        else some (((buf.drop p).take len) ++ [0], newpos)) = _
  rw [hlp]
  show (if readU16 buf pos ≤ 1 ∨ readU16 buf pos > TLSEXT_MAXLEN_host_name
      then none
      else some (((buf.drop (pos + 2)).take (readU16 buf pos)) ++ [0],
        pos + 2 + readU16 buf pos)) = _
  by_cases hc : 1 < readU16 buf pos ∧ readU16 buf pos ≤ TLSEXT_MAXLEN_host_name
  · rcases hc with ⟨hc1, hc2⟩
    rw [if_neg (by omega), if_pos ⟨hc1, hc2⟩]
  · rw [if_pos (by omega), if_neg hc]

/-- Witness for C9: a 3-octet name "abc" is stored NUL-terminated. -/
theorem public_name_characterization_witness :
    parsePublicName [0, 3, 97, 98, 99] 0
      = (if 1 < readU16 [0, 3, 97, 98, 99] 0
            ∧ readU16 [0, 3, 97, 98, 99] 0 ≤ TLSEXT_MAXLEN_host_name
         then some ((([0, 3, 97, 98, 99] : List Nat).drop 2).take
                      (readU16 [0, 3, 97, 98, 99] 0) ++ [0],
                    0 + 2 + readU16 [0, 3, 97, 98, 99] 0)
         else none) :=
  public_name_characterization [0, 3, 97, 98, 99] 0 (by decide)

/-! ### C7: coverage of the declared total length -/

/-- C7 counterexample: on this input the decode succeeds although its single
config occupies bytes [2,25), straddling the declared region [2,12), and the
returned leftover is 2 rather than the 15 octets that lie beyond the
declared length. -/
theorem config_straddle_counterexample :
    ECHConfigs_from_binary c7bytes
      = some ({ recs := [{ version := ECH_DRAFT_10_VERSION, config_id := 7,
                           kem_id := 32, pub := [], ciphersuites := [[0, 1, 0, 1]],
                           maximum_name_length := 64, public_name := [120, 121, 0],
                           exts := [], encoding_start := 2, encoding_length := 10 }],
                encoded_len := 27 }, 2)
    ∧ 2 + 4 + readU16 c7bytes 4 = 25
    ∧ 2 + readU16 c7bytes 0 = 12
    ∧ c7bytes.length - 2 - readU16 c7bytes 0 = 15
    ∧ (2 : Nat) ≠ 15 := by
  refine ⟨by decide, by decide, by decide, by decide, by decide⟩

theorem cfgLoop_leftover (buf : List Nat) (olen ntc : Nat) :
    ∀ fuel pos res, cfgLoop buf olen ntc fuel pos = some res → res.2 ≤ ntc := by
  intro fuel
  induction fuel with
  | zero => intro pos res h; exact absurd h (by simp [cfgLoop])
  | succ f ih =>
      intro pos res h
      rw [cfgLoop] at h
      by_cases hc : buf.length - pos > ntc
      · rw [if_pos hc] at h
        obtain ⟨⟨version, p1⟩, hg1, h⟩ := Option.bind_eq_some.mp h
        simp only [] at h
        obtain ⟨⟨clen, p2⟩, hg2, h⟩ := Option.bind_eq_some.mp h
        simp only [] at h
        by_cases hc2 : clen < 2 ∨ clen - 2 > buf.length - p2
        · rw [if_pos hc2] at h; simp at h
        rw [if_neg hc2] at h
        by_cases hv10 : version = ECH_DRAFT_10_VERSION
        · rw [if_pos hv10] at h
          obtain ⟨⟨ec, p3⟩, hb, h⟩ := Option.bind_eq_some.mp h
          simp only [] at h
          obtain ⟨⟨rest, leftover⟩, hl, h⟩ := Option.bind_eq_some.mp h
          simp only [] at h
          have hres := Option.some.inj h
          have hlo := ih p3 (rest, leftover) hl
          rw [← hres]
          exact hlo
        rw [if_neg hv10] at h
        by_cases hv09 : version = ECH_DRAFT_09_VERSION
        · rw [if_pos hv09] at h
          obtain ⟨⟨ec, p3⟩, hb, h⟩ := Option.bind_eq_some.mp h
          simp only [] at h
          obtain ⟨⟨rest, leftover⟩, hl, h⟩ := Option.bind_eq_some.mp h
          simp only [] at h
          have hres := Option.some.inj h
          have hlo := ih p3 (rest, leftover) hl
          rw [← hres]
          exact hlo
        rw [if_neg hv09] at h
        obtain ⟨⟨junk, p3⟩, hcp, h⟩ := Option.bind_eq_some.mp h
        simp only [] at h
        exact ih p3 res h
      · rw [if_neg hc] at h
        have hres := Option.some.inj h
        rw [← hres]
        omega

/-- C7 (amended): a successful `ECHConfigs_from_binary` decode validates that
the input holds at least 10 and fewer than 1500 octets and that the leading
u16 total_length is at least 10 and at most `input_len - 2`; parsing then
continues only while more than `input_len - total_length` octets remain
unread, so at most `input_len - total_length` octets are returned as
leftover — but a config may consume octets beyond the declared total_length
without failing the decode, in which case fewer than the octets beyond the
declared length are returned as leftover. -/
theorem from_binary_validations (binbuf : List Nat) (r : ECHConfigs × Nat)
    (h : ECHConfigs_from_binary binbuf = some r) :
    ECH_MIN_ECHCONFIG_LEN ≤ binbuf.length
    ∧ binbuf.length < ECH_MAX_ECHCONFIG_LEN
    ∧ ECH_MIN_ECHCONFIG_LEN ≤ readU16 binbuf 0
    ∧ readU16 binbuf 0 ≤ binbuf.length - 2
    ∧ readU16 binbuf 0 < binbuf.length
    ∧ r.2 ≤ binbuf.length - readU16 binbuf 0 := by
  unfold ECHConfigs_from_binary at h
  by_cases h0 : binbuf.length = 0
  · rw [if_pos h0] at h; simp at h
  rw [if_neg h0] at h
  by_cases h1 : binbuf.length < ECH_MIN_ECHCONFIG_LEN
  · rw [if_pos h1] at h; simp at h
  rw [if_neg h1] at h
  by_cases h2 : binbuf.length ≥ ECH_MAX_ECHCONFIG_LEN
  · rw [if_pos h2] at h; simp at h
  rw [if_neg h2] at h
  rw [show pktGet2 binbuf 0 = some (readU16 binbuf 0, 2) from by
    unfold pktGet2
    rw [if_pos (by unfold ECH_MIN_ECHCONFIG_LEN at h1; omega)]] at h
  simp only [] at h
  by_cases h3 : readU16 binbuf 0 < ECH_MIN_ECHCONFIG_LEN
      ∨ readU16 binbuf 0 > binbuf.length - 2
  · rw [if_pos h3] at h; simp at h
  rw [if_neg h3] at h
  by_cases h4 : binbuf.length ≤ readU16 binbuf 0
  · rw [if_pos h4] at h; simp at h
  rw [if_neg h4] at h
  cases hl : cfgLoop binbuf (readU16 binbuf 0)
      (binbuf.length - readU16 binbuf 0) (binbuf.length + 1) 2 with
  | none => rw [hl] at h; simp at h
  | some rl =>
    rw [hl] at h
    obtain ⟨recs, leftover⟩ := rl
    simp only [] at h
    by_cases h5 : leftover > binbuf.length
    · rw [if_pos h5] at h; simp at h
    rw [if_neg h5] at h
    have hres := Option.some.inj h
    have hlo := cfgLoop_leftover binbuf (readU16 binbuf 0)
      (binbuf.length - readU16 binbuf 0) (binbuf.length + 1) 2 (recs, leftover) hl
    refine ⟨by omega, by omega, by omega, by omega, by omega, ?_⟩
    rw [← hres]
    exact hlo

/-- Witness for C7: the validations at a well-formed single-config input
(total length 21, one config, one leftover octet). -/
theorem from_binary_validations_witness :
    ECH_MIN_ECHCONFIG_LEN ≤ ([0, 23] ++ c4cfgbody 7 ++ [9] : List Nat).length
    ∧ ([0, 23] ++ c4cfgbody 7 ++ [9] : List Nat).length < ECH_MAX_ECHCONFIG_LEN
    ∧ ECH_MIN_ECHCONFIG_LEN ≤ readU16 ([0, 23] ++ c4cfgbody 7 ++ [9]) 0
    ∧ readU16 ([0, 23] ++ c4cfgbody 7 ++ [9]) 0
        ≤ ([0, 23] ++ c4cfgbody 7 ++ [9] : List Nat).length - 2
    ∧ readU16 ([0, 23] ++ c4cfgbody 7 ++ [9]) 0
        < ([0, 23] ++ c4cfgbody 7 ++ [9] : List Nat).length
    ∧ (({ recs := [c4rec23 7 2], encoded_len := 26 } : ECHConfigs), (1 : Nat)).2
        ≤ ([0, 23] ++ c4cfgbody 7 ++ [9] : List Nat).length
            - readU16 ([0, 23] ++ c4cfgbody 7 ++ [9]) 0 :=
  from_binary_validations ([0, 23] ++ c4cfgbody 7 ++ [9])
    ({ recs := [c4rec23 7 2], encoded_len := 26 }, 1) (by decide)

/-! ### C4: the raw-encoding window and the HPKE info -/

/-- C4: on a two-config list, `ECHConfigs_from_binary` records for every
config `encoding_start` pointing at that config's own version field (offsets
2 and 25 here) but `encoding_length` equal to the whole list's declared
length 46 — not the config's `content_length + 4 = 23` — so the HPKE info
built by `ech_make_enc_info` for the first config is "tls ech", a zero byte,
then the bytes of BOTH configs (and for the second config the window even
runs past the end of the buffer). -/
theorem enc_info_window_covers_list :
    ECHConfigs_from_binary c4bytes
      = some ({ recs := [c4rec 7 2, c4rec 8 25], encoded_len := 48 }, 0)
    ∧ (c4rec 7 2).encoding_length = 46
    ∧ readU16 c4bytes 4 + 4 = 23
    ∧ ech_make_enc_info c4bytes (c4rec 7 2) 2000
        = some (ECH_CONTEXT_STRING ++ [0] ++ (c4cfgbody 7 ++ c4cfgbody 8))
    ∧ (c4rec 8 25).encoding_start + (c4rec 8 25).encoding_length = 71
    ∧ c4bytes.length = 48
    ∧ (46 : Nat) ≠ 23 := by
  refine ⟨by decide, by decide, by decide, by decide, by decide, by decide, by decide⟩

/-! ### Byte-offset toolkit for the AAD and inner-decode proofs -/

theorem getD_drop (l : List Nat) (i j d : Nat) :
    (l.drop i).getD j d = l.getD (i + j) d := by
  simp [List.getD, List.getElem?_drop]

theorem readU16_drop (l : List Nat) (i j : Nat) :
    readU16 (l.drop i) j = readU16 l (i + j) := by
  unfold readU16
  rw [getD_drop, getD_drop, Nat.add_assoc]

theorem readU16_eq_of_drop (l x : List Nat) (i : Nat) (h : l.drop i = x) :
    readU16 l i = readU16 x 0 := by
  rw [← h, readU16_drop, Nat.add_zero]

theorem getD_eq_of_drop (l x : List Nat) (i d : Nat) (h : l.drop i = x) :
    l.getD i d = x.getD 0 d := by
  rw [← h, getD_drop, Nat.add_zero]

theorem drop_shift (ch x pre : List Nat) (pos k : Nat)
    (h : ch.drop pos = pre ++ x) (hk : k = pre.length) :
    ch.drop (pos + k) = x := by
  have h1 : ch.drop (pos + k) = (ch.drop pos).drop k := by
    rw [List.drop_drop]
    try rw [Nat.add_comm]
  rw [h1, h, drop_at pre x k hk]

@[simp] theorem encExts_nil : encExts [] = [] := rfl

@[simp] theorem encExts_cons (e : Ext) (l : List Ext) :
    encExts (e :: l) = encExt e ++ encExts l := rfl

theorem encExts_append (l1 l2 : List Ext) :
    encExts (l1 ++ l2) = encExts l1 ++ encExts l2 := by
  simp [encExts]

theorem encExt_length (e : Ext) : (encExt e).length = 4 + e.val.length := by
  simp [encExt, be16]
  omega

theorem be16_mod (n : Nat) : be16 (n % 65536) = be16 n := by
  unfold be16
  have h1 : n % 65536 / 256 % 256 = n / 256 % 256 := by omega
  have h2 : n % 65536 % 256 = n % 256 := by omega
  rw [h1, h2]

theorem readU16_be16_mod (n : Nat) (l : List Nat) :
    readU16 (be16 n ++ l) 0 = n % 65536 := by
  show n / 256 % 256 * 256 + n % 256 = n % 65536
  omega

theorem echExtVal_length (kdf aead cid : Nat) (mypub cipher : List Nat) :
    (echExtVal kdf aead cid mypub cipher).length
      = 9 + mypub.length + cipher.length := by
  simp [echExtVal, be16]
  omega

theorem echExtBytes_eq_encExt (kdf aead cid : Nat) (mypub cipher : List Nat) :
    echExtBytes kdf aead cid mypub cipher
      = encExt ⟨TLSEXT_TYPE_ech, echExtVal kdf aead cid mypub cipher⟩ := by
  unfold echExtBytes encExt
  rw [echExtVal_length]
  show _ = be16 TLSEXT_TYPE_ech ++ be16 (9 + mypub.length + cipher.length)
      ++ echExtVal kdf aead cid mypub cipher
  unfold echExtVal
  simp [List.append_assoc]

theorem offsetsSpec_append (l1 l2 : List Ext) :
    ∀ pos acc, offsetsSpec (l1 ++ l2) pos acc
      = offsetsSpec l2 (pos + (encExts l1).length) (offsetsSpec l1 pos acc) := by
  induction l1 with
  | nil => intro pos acc; simp [offsetsSpec]
  | cons e rest ih =>
      intro pos acc
      obtain ⟨e0, s0⟩ := acc
      simp only [List.cons_append, offsetsSpec, List.append_eq]
      rw [ih]
      congr 1
      rw [encExts_cons, List.length_append, encExt_length]
      omega

theorem getOffsetsScan_encExts (ch : List Nat) :
    ∀ (l : List Ext) (junk : List Nat) (fuel pos e0 s0 : Nat),
      (∀ e ∈ l, e.etype < 65536 ∧ e.val.length < 65536) →
      ch.drop pos = encExts l ++ junk →
      l.length ≤ fuel →
      getOffsetsScan ch fuel pos ((encExts l).length - 2) e0 s0
        = offsetsSpec l pos (e0, s0) := by
  intro l
  induction l with
  | nil =>
      intro junk fuel pos e0 s0 _ _ _
      cases fuel with
      | zero => rfl
      | succ f => simp [getOffsetsScan, offsetsSpec]
  | cons e rest ih =>
      intro junk fuel pos e0 s0 hwf hdrop hfuel
      cases fuel with
      | zero => simp at hfuel
      | succ f =>
          rw [getOffsetsScan]
          have hlen : (encExts (e :: rest)).length
              = 4 + e.val.length + (encExts rest).length := by
            rw [encExts_cons, List.length_append, encExt_length]
          rw [if_neg (by omega)]
          have he : ch.drop pos = be16 e.etype ++
              (be16 e.val.length ++ (e.val ++ (encExts rest ++ junk))) := by
            rw [hdrop]
            simp [encExt, List.append_assoc]
          have h1 : readU16 ch pos = e.etype := by
            rw [readU16_eq_of_drop ch _ pos he,
              readU16_be16 _ _ (hwf e (List.mem_cons_self e rest)).1]
          have h2 : readU16 ch (pos + 2) = e.val.length := by
            have hd2 : ch.drop (pos + 2)
                = be16 e.val.length ++ (e.val ++ (encExts rest ++ junk)) :=
              drop_shift ch _ _ pos 2 he (by simp)
            rw [readU16_eq_of_drop ch _ _ hd2,
              readU16_be16 _ _ (hwf e (List.mem_cons_self e rest)).2]
          simp only [h1, h2]
          have hd3 : ch.drop (pos + 4 + e.val.length)
              = encExts rest ++ junk := by
            have hstep : ch.drop (pos + (4 + e.val.length))
                = encExts rest ++ junk := by
              refine drop_shift ch _ (encExt e) pos (4 + e.val.length) ?_ ?_
              · rw [hdrop]; simp [List.append_assoc]
              · rw [encExt_length]
            rw [show pos + 4 + e.val.length = pos + (4 + e.val.length) from by omega]
            exact hstep
          have hrem : (encExts (e :: rest)).length - 2 - (4 + e.val.length)
              = (encExts rest).length - 2 := by
            omega
          rw [hrem]
          rw [ih junk f (pos + 4 + e.val.length) _ _
            (fun x hx => hwf x (List.mem_cons_of_mem e hx)) hd3 (by simpa using hfuel)]
          simp [offsetsSpec]

theorem encExts_length_ge (l : List Ext) : l.length ≤ (encExts l).length := by
  induction l with
  | nil => simp
  | cons e rest ih =>
      rw [encExts_cons, List.length_append, encExt_length, List.length_cons]
      omega

theorem ech_get_offsets_spec (ver rnd sid suites : List Nat) (l : List Ext)
    (hver : ver.length = 2) (hrnd : rnd.length = 32)
    (hsl : suites.length < 65536)
    (hwf : ∀ e ∈ l, e.etype < 65536 ∧ e.val.length < 65536)
    (hlen : (encExts l).length < 65536)
    (hsan : 39 + sid.length + suites.length + 2 ≤ 2 + (encExts l).length) :
    ech_get_offsets (ver ++ rnd ++ [sid.length] ++ sid ++ be16 suites.length
        ++ suites ++ [1, 0] ++ be16 (encExts l).length ++ encExts l)
      = some (2 + 32, 2 + 32 + 1 + sid.length + suites.length + 2 + 2,
          (offsetsSpec l (2 + 32 + 1 + sid.length + suites.length + 2 + 2 + 2) (0, 0)).1,
          (offsetsSpec l (2 + 32 + 1 + sid.length + suites.length + 2 + 2 + 2) (0, 0)).2) := by
  have hWlen : (ver ++ rnd ++ [sid.length] ++ sid ++ be16 suites.length
      ++ suites ++ [1, 0] ++ be16 (encExts l).length ++ encExts l).length
      = 41 + sid.length + suites.length + (encExts l).length := by
    simp only [List.length_append, List.length_cons, List.length_nil, be16_length,
      hver, hrnd]
    omega
  have hsd : (ver ++ rnd ++ [sid.length] ++ sid ++ be16 suites.length
      ++ suites ++ [1, 0] ++ be16 (encExts l).length ++ encExts l).getD (2 + 32) 0
      = sid.length := by
    rw [show ver ++ rnd ++ [sid.length] ++ sid ++ be16 suites.length
        ++ suites ++ [1, 0] ++ be16 (encExts l).length ++ encExts l
        = (ver ++ rnd) ++ (sid.length :: (sid ++ (be16 suites.length
          ++ (suites ++ ([1, 0] ++ (be16 (encExts l).length ++ encExts l))))))
      from by simp [List.append_assoc]]
    exact getD_at _ _ _ (2 + 32) 0 (by simp [hver, hrnd])
  have hsuit : readU16 (ver ++ rnd ++ [sid.length] ++ sid ++ be16 suites.length
      ++ suites ++ [1, 0] ++ be16 (encExts l).length ++ encExts l)
      (2 + 32 + 1 + sid.length) = suites.length := by
    rw [show ver ++ rnd ++ [sid.length] ++ sid ++ be16 suites.length
        ++ suites ++ [1, 0] ++ be16 (encExts l).length ++ encExts l
        = (ver ++ rnd ++ [sid.length] ++ sid) ++ (be16 suites.length
          ++ (suites ++ ([1, 0] ++ (be16 (encExts l).length ++ encExts l))))
      from by simp [List.append_assoc]]
    rw [readU16_at _ _ _ (by simp [hver, hrnd]; omega)]
    exact readU16_be16 _ _ hsl
  have hext : readU16 (ver ++ rnd ++ [sid.length] ++ sid ++ be16 suites.length
      ++ suites ++ [1, 0] ++ be16 (encExts l).length ++ encExts l)
      (2 + 32 + 1 + sid.length + suites.length + 2 + 2) = (encExts l).length := by
    rw [show ver ++ rnd ++ [sid.length] ++ sid ++ be16 suites.length
        ++ suites ++ [1, 0] ++ be16 (encExts l).length ++ encExts l
        = (ver ++ rnd ++ [sid.length] ++ sid ++ be16 suites.length ++ suites
          ++ [1, 0]) ++ (be16 (encExts l).length ++ encExts l)
      from by simp [List.append_assoc]]
    rw [readU16_at _ _ _ (by simp [hver, hrnd]; omega)]
    exact readU16_be16 _ _ hlen
  have hdropexts : (ver ++ rnd ++ [sid.length] ++ sid ++ be16 suites.length
      ++ suites ++ [1, 0] ++ be16 (encExts l).length ++ encExts l).drop
      (2 + 32 + 1 + sid.length + suites.length + 2 + 2 + 2) = encExts l ++ [] := by
    rw [show ver ++ rnd ++ [sid.length] ++ sid ++ be16 suites.length
        ++ suites ++ [1, 0] ++ be16 (encExts l).length ++ encExts l
        = (ver ++ rnd ++ [sid.length] ++ sid ++ be16 suites.length ++ suites
          ++ [1, 0] ++ be16 (encExts l).length) ++ encExts l
      from by simp [List.append_assoc]]
    rw [drop_at _ _ _ (by simp [hver, hrnd]; omega)]
    simp
  unfold ech_get_offsets
  simp only [hsd, hsuit, hext]
  rw [if_neg (by omega), if_neg (by omega), if_neg (by omega)]
  rw [getOffsetsScan_encExts _ l [] ((encExts l).length + 1)
    (2 + 32 + 1 + sid.length + suites.length + 2 + 2 + 2) 0 0 hwf hdropexts
    (by have := encExts_length_ge l; omega)]

theorem splice_spec (hdr ver rnd sid suites eb E : List Nat)
    (hhdr : hdr.length = 4) (hver : ver.length = 2) (hrnd : rnd.length = 32)
    (hsl : suites.length < 65536) (hnew : eb.length + E.length < 65536) :
    ech_aad_and_encrypt_splice sid.length
        (hdr ++ ver ++ rnd ++ [sid.length] ++ sid ++ be16 suites.length ++ suites
          ++ [1, 0] ++ be16 eb.length ++ eb) E
      = hdr ++ ver ++ rnd ++ [sid.length] ++ sid ++ be16 suites.length ++ suites
          ++ [1, 0] ++ be16 (eb.length + E.length) ++ (eb ++ E) := by
  have hsuit : readU16 ((hdr ++ ver ++ rnd ++ [sid.length] ++ sid
      ++ be16 suites.length ++ suites ++ [1, 0] ++ be16 eb.length ++ eb) ++ E)
      (6 + 32 + 1 + sid.length) = suites.length := by
    rw [show (hdr ++ ver ++ rnd ++ [sid.length] ++ sid ++ be16 suites.length
        ++ suites ++ [1, 0] ++ be16 eb.length ++ eb) ++ E
        = (hdr ++ ver ++ rnd ++ [sid.length] ++ sid) ++ (be16 suites.length
          ++ (suites ++ ([1, 0] ++ (be16 eb.length ++ (eb ++ E)))))
      from by simp [List.append_assoc]]
    rw [readU16_at _ _ _ (by simp [hhdr, hver, hrnd]; omega)]
    exact readU16_be16 _ _ hsl
  have hsplit : (hdr ++ ver ++ rnd ++ [sid.length] ++ sid ++ be16 suites.length
      ++ suites ++ [1, 0] ++ be16 eb.length ++ eb) ++ E
      = (hdr ++ ver ++ rnd ++ [sid.length] ++ sid ++ be16 suites.length ++ suites
          ++ [1, 0]) ++ (eb.length / 256 % 256 :: (eb.length % 256 :: (eb ++ E))) := by
    simp [be16, List.append_assoc]
  have hplen : (hdr ++ ver ++ rnd ++ [sid.length] ++ sid ++ be16 suites.length
      ++ suites ++ [1, 0]).length = 43 + sid.length + suites.length := by
    simp only [List.length_append, List.length_cons, List.length_nil, be16_length,
      hhdr, hver, hrnd]
    omega
  have horig : readU16 ((hdr ++ ver ++ rnd ++ [sid.length] ++ sid
      ++ be16 suites.length ++ suites ++ [1, 0] ++ be16 eb.length ++ eb) ++ E)
      (6 + 32 + 1 + sid.length + suites.length + 2 + 2) = eb.length := by
    rw [show (hdr ++ ver ++ rnd ++ [sid.length] ++ sid ++ be16 suites.length
        ++ suites ++ [1, 0] ++ be16 eb.length ++ eb) ++ E
        = (hdr ++ ver ++ rnd ++ [sid.length] ++ sid ++ be16 suites.length ++ suites
          ++ [1, 0]) ++ (be16 eb.length ++ (eb ++ E))
      from by simp [List.append_assoc]]
    rw [readU16_at _ _ _ (by rw [hplen]; omega)]
    exact readU16_be16 _ _ (by omega)
  unfold ech_aad_and_encrypt_splice
  simp only [hsuit, horig]
  rw [hsplit]
  rw [set_at _ _ _ (6 + 32 + 1 + sid.length + suites.length + 2 + 2) _
    (by rw [hplen]; omega)]
  rw [show (hdr ++ ver ++ rnd ++ [sid.length] ++ sid ++ be16 suites.length
      ++ suites ++ [1, 0]) ++ ((eb.length + E.length) % 65536 / 256
        :: (eb.length % 256 :: (eb ++ E)))
      = ((hdr ++ ver ++ rnd ++ [sid.length] ++ sid ++ be16 suites.length
        ++ suites ++ [1, 0]) ++ [(eb.length + E.length) % 65536 / 256])
        ++ (eb.length % 256 :: (eb ++ E))
    from by simp [List.append_assoc]]
  rw [set_at _ _ _ (6 + 32 + 1 + sid.length + suites.length + 2 + 2 + 1) _
    (by simp only [List.length_append, List.length_cons, List.length_nil,
          be16_length, hhdr, hver, hrnd]
        omega)]
  rw [show (eb.length + E.length) % 65536 / 256
      = (eb.length + E.length) / 256 % 256 from by omega]
  rw [show (eb.length + E.length) % 65536 % 256
      = (eb.length + E.length) % 256 from by omega]
  simp [be16, List.append_assoc]

theorem parseClientECH_spec (ch : List Nat) (pos : Nat) (kdf aead cid : Nat)
    (mypub cipher : List Nat)
    (hdropv : ch.drop pos = echExtVal kdf aead cid mypub cipher)
    (hpub : mypub.length ≤ MAX_ECH_ENC_LEN)
    (hcipher : cipher.length ≤ MAX_ECH_PAYLOAD_LEN) :
    parseClientECH ch pos (pos + (9 + mypub.length + cipher.length))
      = some { kdf_id := kdf % 65536, aead_id := aead % 65536,
               config_id := cid % 256, enc := mypub, payload := cipher } := by
  have hpub6 : mypub.length < 65536 := by
    unfold MAX_ECH_ENC_LEN at hpub; omega
  have hcip6 : cipher.length < 65536 := by
    unfold MAX_ECH_PAYLOAD_LEN at hcipher; omega
  have hv : ch.drop pos = be16 kdf ++ (be16 aead ++ ((cid % 256)
      :: (be16 mypub.length ++ (mypub ++ (be16 cipher.length ++ cipher))))) := by
    rw [hdropv]; unfold echExtVal; simp [List.append_assoc]
  have hkdf : readU16 ch pos = kdf % 65536 := by
    rw [readU16_eq_of_drop ch _ pos hv, readU16_be16_mod]
  have haead : readU16 ch (pos + 2) = aead % 65536 := by
    have hd : ch.drop (pos + 2) = be16 aead ++ ((cid % 256)
        :: (be16 mypub.length ++ (mypub ++ (be16 cipher.length ++ cipher)))) :=
      drop_shift ch _ _ pos 2 hv (by simp)
    rw [readU16_eq_of_drop ch _ _ hd, readU16_be16_mod]
  have hcid : ch.getD (pos + 4) 0 = cid % 256 := by
    have hd : ch.drop (pos + 4) = (cid % 256)
        :: (be16 mypub.length ++ (mypub ++ (be16 cipher.length ++ cipher))) := by
      refine drop_shift ch _ (be16 kdf ++ be16 aead) pos 4 ?_ (by simp)
      rw [hv]; simp [List.append_assoc]
    rw [getD_eq_of_drop ch _ _ 0 hd]
    rfl
  have henclen : readU16 ch (pos + 5) = mypub.length := by
    have hd : ch.drop (pos + 5) = be16 mypub.length
        ++ (mypub ++ (be16 cipher.length ++ cipher)) := by
      refine drop_shift ch _ (be16 kdf ++ be16 aead ++ [cid % 256]) pos 5 ?_ (by simp)
      rw [hv]; simp [List.append_assoc]
    rw [readU16_eq_of_drop ch _ _ hd, readU16_be16 _ _ hpub6]
  have henc : (ch.drop (pos + 7)).take mypub.length = mypub := by
    have hd : ch.drop (pos + 7) = mypub ++ (be16 cipher.length ++ cipher) := by
      refine drop_shift ch _ (be16 kdf ++ be16 aead ++ [cid % 256]
        ++ be16 mypub.length) pos 7 ?_ (by simp)
      rw [hv]; simp [List.append_assoc]
    rw [hd, List.take_left' rfl]
  have hpaylen : readU16 ch (pos + 7 + mypub.length) = cipher.length := by
    have hd : ch.drop (pos + 7 + mypub.length)
        = be16 cipher.length ++ cipher := by
      rw [show pos + 7 + mypub.length = pos + (7 + mypub.length) from by omega]
      refine drop_shift ch _ (be16 kdf ++ be16 aead ++ [cid % 256]
        ++ be16 mypub.length ++ mypub) pos (7 + mypub.length) ?_ (by simp; omega)
      rw [hv]; simp [List.append_assoc]
    rw [readU16_eq_of_drop ch _ _ hd, readU16_be16 _ _ hcip6]
  have hpay : (ch.drop (pos + 7 + mypub.length + 2)).take cipher.length
      = cipher := by
    have hd : ch.drop (pos + 7 + mypub.length + 2) = cipher := by
      rw [show pos + 7 + mypub.length + 2 = pos + (9 + mypub.length) from by omega]
      refine drop_shift ch _ (be16 kdf ++ be16 aead ++ [cid % 256]
        ++ be16 mypub.length ++ mypub ++ be16 cipher.length) pos
        (9 + mypub.length) ?_ (by simp; omega)
      rw [hv]; simp [List.append_assoc]
    rw [hd, List.take_of_length_le (Nat.le_refl _)]
  unfold parseClientECH
  rw [if_pos (by omega)]
  simp only [hkdf]
  rw [if_pos (by omega)]
  simp only [haead]
  rw [if_pos (by omega)]
  simp only [hcid]
  rw [if_pos (by omega)]
  simp only [henclen]
  rw [if_neg (by unfold MAX_ECH_ENC_LEN at hpub ⊢; omega)]
  rw [if_neg (by omega)]
  rw [if_pos (by omega)]
  simp only [hpaylen]
  rw [if_neg (by unfold MAX_ECH_PAYLOAD_LEN at hcipher ⊢; omega)]
  rw [if_neg (by omega)]
  rw [henc, hpay]

/-- C3: for every outer ClientHello assembled by the client — the ECH
extension appended last by `ech_aad_and_encrypt` and the extensions length
rewritten — the AAD the server reconstructs in `ech_early_decrypt` (removing
the ECH extension from the received body, fixing the extensions length and
calling `ech_srv_get_aad`) is byte-identical to the AAD the client sealed
with: u16 kdf, u16 aead, u8 config_id, u16 enc_len, enc, u24 length of the
outer body without the ECH extension, then that body. -/
theorem aad_roundtrip (hdr ver rnd sid suites : List Nat) (oes : List Ext)
    (kdf aead cid : Nat) (mypub cipher : List Nat) (maxlen : Nat)
    (hhdr : hdr.length = 4) (hver : ver.length = 2) (hrnd : rnd.length = 32)
    (hsid : sid.length ≤ 32) (hsl : suites.length < 65536)
    (hwf : ∀ e ∈ oes, e.etype < 65536 ∧ e.val.length < 65536)
    (hpub : mypub.length ≤ MAX_ECH_ENC_LEN)
    (hcipher : cipher.length ≤ MAX_ECH_PAYLOAD_LEN)
    (hnew : (encExts oes).length + (13 + mypub.length + cipher.length) < 65536)
    (hsan : 39 + sid.length + suites.length
        ≤ (encExts oes).length + (13 + mypub.length + cipher.length))
    (hmax : 51 + mypub.length + sid.length + suites.length
        + (encExts oes).length ≤ maxlen) :
    ech_early_decrypt_srv_aad maxlen
        ((ech_aad_and_encrypt_splice sid.length
            (hdr ++ ver ++ rnd ++ [sid.length] ++ sid ++ be16 suites.length
              ++ suites ++ [1, 0] ++ be16 (encExts oes).length ++ encExts oes)
            (echExtBytes kdf aead cid mypub cipher)).drop 4)
      = some (ech_aad_and_encrypt_aad kdf aead cid mypub
          (hdr ++ ver ++ rnd ++ [sid.length] ++ sid ++ be16 suites.length
            ++ suites ++ [1, 0] ++ be16 (encExts oes).length ++ encExts oes)) := by
  have hpub6 : mypub.length < 65536 := by
    unfold MAX_ECH_ENC_LEN at hpub; omega
  have hcip6 : cipher.length < 65536 := by
    unfold MAX_ECH_PAYLOAD_LEN at hcipher; omega
  have hvlen := echExtVal_length kdf aead cid mypub cipher
  have hElen : (echExtBytes kdf aead cid mypub cipher).length
      = 13 + mypub.length + cipher.length := by
    rw [echExtBytes_eq_encExt, encExt_length, hvlen]
    omega
  rw [splice_spec hdr ver rnd sid suites (encExts oes)
    (echExtBytes kdf aead cid mypub cipher) hhdr hver hrnd hsl
    (by rw [hElen]; omega)]
  rw [show hdr ++ ver ++ rnd ++ [sid.length] ++ sid ++ be16 suites.length
      ++ suites ++ [1, 0] ++ be16 ((encExts oes).length
        + (echExtBytes kdf aead cid mypub cipher).length)
      ++ (encExts oes ++ echExtBytes kdf aead cid mypub cipher)
      = hdr ++ (ver ++ rnd ++ [sid.length] ++ sid ++ be16 suites.length
        ++ suites ++ [1, 0] ++ be16 ((encExts oes).length
          + (echExtBytes kdf aead cid mypub cipher).length)
        ++ (encExts oes ++ echExtBytes kdf aead cid mypub cipher))
    from by simp [List.append_assoc]]
  rw [drop_at hdr _ 4 hhdr.symm]
  have hl2 : encExts (oes ++ [⟨TLSEXT_TYPE_ech,
      echExtVal kdf aead cid mypub cipher⟩])
      = encExts oes ++ echExtBytes kdf aead cid mypub cipher := by
    rw [encExts_append, encExts_cons, encExts_nil, List.append_nil,
      echExtBytes_eq_encExt]
  have hl2len : (encExts (oes ++ [⟨TLSEXT_TYPE_ech,
      echExtVal kdf aead cid mypub cipher⟩])).length
      = (encExts oes).length + (echExtBytes kdf aead cid mypub cipher).length := by
    rw [hl2, List.length_append]
  have hwfL : ∀ e ∈ oes ++ [(⟨TLSEXT_TYPE_ech,
      echExtVal kdf aead cid mypub cipher⟩ : Ext)],
      e.etype < 65536 ∧ e.val.length < 65536 := by
    intro e he
    rcases List.mem_append.mp he with h1 | h1
    · exact hwf e h1
    · rcases List.mem_singleton.mp h1 with rfl
      constructor
      · show TLSEXT_TYPE_ech < 65536
        decide
      · show (echExtVal kdf aead cid mypub cipher).length < 65536
        rw [hvlen]; omega
  have hlenL : (encExts (oes ++ [(⟨TLSEXT_TYPE_ech,
      echExtVal kdf aead cid mypub cipher⟩ : Ext)])).length < 65536 := by
    rw [hl2len, hElen]; omega
  have hoffs := ech_get_offsets_spec ver rnd sid suites
    (oes ++ [(⟨TLSEXT_TYPE_ech, echExtVal kdf aead cid mypub cipher⟩ : Ext)])
    hver hrnd hsl hwfL hlenL (by rw [hl2len, hElen]; omega)
  rw [hl2len, hl2] at hoffs
  rcases hacc : offsetsSpec oes
      (2 + 32 + 1 + sid.length + suites.length + 2 + 2 + 2) (0, 0) with ⟨a, b⟩
  have hoff1 : (offsetsSpec (oes ++ [(⟨TLSEXT_TYPE_ech,
      echExtVal kdf aead cid mypub cipher⟩ : Ext)])
      (2 + 32 + 1 + sid.length + suites.length + 2 + 2 + 2) (0, 0)).1
      = 2 + 32 + 1 + sid.length + suites.length + 2 + 2 + 2
        + (encExts oes).length := by
    rw [offsetsSpec_append, hacc]
    simp [offsetsSpec]
  rw [hoff1] at hoffs
  have hsdW : (ver ++ rnd ++ [sid.length] ++ sid ++ be16 suites.length
      ++ suites ++ [1, 0] ++ be16 ((encExts oes).length
        + (echExtBytes kdf aead cid mypub cipher).length)
      ++ (encExts oes ++ echExtBytes kdf aead cid mypub cipher)).getD (2 + 32) 0
      = sid.length := by
    rw [show ver ++ rnd ++ [sid.length] ++ sid ++ be16 suites.length
        ++ suites ++ [1, 0] ++ be16 ((encExts oes).length
          + (echExtBytes kdf aead cid mypub cipher).length)
        ++ (encExts oes ++ echExtBytes kdf aead cid mypub cipher)
        = (ver ++ rnd) ++ (sid.length :: (sid ++ (be16 suites.length
          ++ (suites ++ ([1, 0] ++ (be16 ((encExts oes).length
            + (echExtBytes kdf aead cid mypub cipher).length)
            ++ (encExts oes ++ echExtBytes kdf aead cid mypub cipher)))))))
      from by simp [List.append_assoc]]
    exact getD_at _ _ _ (2 + 32) 0 (by simp [hver, hrnd])
  have hdropE2 : (ver ++ rnd ++ [sid.length] ++ sid ++ be16 suites.length
      ++ suites ++ [1, 0] ++ be16 ((encExts oes).length
        + (echExtBytes kdf aead cid mypub cipher).length)
      ++ (encExts oes ++ echExtBytes kdf aead cid mypub cipher)).drop
      (2 + 32 + 1 + sid.length + suites.length + 2 + 2 + 2)
      = encExts oes ++ echExtBytes kdf aead cid mypub cipher := by
    rw [show ver ++ rnd ++ [sid.length] ++ sid ++ be16 suites.length
        ++ suites ++ [1, 0] ++ be16 ((encExts oes).length
          + (echExtBytes kdf aead cid mypub cipher).length)
        ++ (encExts oes ++ echExtBytes kdf aead cid mypub cipher)
        = (ver ++ rnd ++ [sid.length] ++ sid ++ be16 suites.length
          ++ suites ++ [1, 0] ++ be16 ((encExts oes).length
            + (echExtBytes kdf aead cid mypub cipher).length))
          ++ (encExts oes ++ echExtBytes kdf aead cid mypub cipher)
      from by simp [List.append_assoc]]
    exact drop_at _ _ _ (by simp only [List.length_append, List.length_cons,
      List.length_nil, be16_length, hver, hrnd]; omega)
  have hdropEonly : (ver ++ rnd ++ [sid.length] ++ sid ++ be16 suites.length
      ++ suites ++ [1, 0] ++ be16 ((encExts oes).length
        + (echExtBytes kdf aead cid mypub cipher).length)
      ++ (encExts oes ++ echExtBytes kdf aead cid mypub cipher)).drop
      (2 + 32 + 1 + sid.length + suites.length + 2 + 2 + 2
        + (encExts oes).length)
      = echExtBytes kdf aead cid mypub cipher :=
    drop_shift _ _ (encExts oes) _ _ hdropE2 rfl
  have hE4 : echExtBytes kdf aead cid mypub cipher
      = be16 TLSEXT_TYPE_ech ++ (be16 (9 + mypub.length + cipher.length)
        ++ echExtVal kdf aead cid mypub cipher) := by
    unfold echExtBytes echExtVal
    simp [List.append_assoc]
  have hdropLen : (ver ++ rnd ++ [sid.length] ++ sid ++ be16 suites.length
      ++ suites ++ [1, 0] ++ be16 ((encExts oes).length
        + (echExtBytes kdf aead cid mypub cipher).length)
      ++ (encExts oes ++ echExtBytes kdf aead cid mypub cipher)).drop
      (2 + 32 + 1 + sid.length + suites.length + 2 + 2 + 2
        + (encExts oes).length + 2)
      = be16 (9 + mypub.length + cipher.length)
        ++ echExtVal kdf aead cid mypub cipher := by
    refine drop_shift _ _ (be16 TLSEXT_TYPE_ech) _ 2 ?_ (by simp [be16])
    rw [hdropEonly, hE4]
  have hechlen : readU16 (ver ++ rnd ++ [sid.length] ++ sid ++ be16 suites.length
      ++ suites ++ [1, 0] ++ be16 ((encExts oes).length
        + (echExtBytes kdf aead cid mypub cipher).length)
      ++ (encExts oes ++ echExtBytes kdf aead cid mypub cipher))
      (2 + 32 + 1 + sid.length + suites.length + 2 + 2 + 2
        + (encExts oes).length + 2)
      = 9 + mypub.length + cipher.length := by
    rw [readU16_eq_of_drop _ _ _ hdropLen]
    exact readU16_be16 _ _ (by omega)
  have hdropv : (ver ++ rnd ++ [sid.length] ++ sid ++ be16 suites.length
      ++ suites ++ [1, 0] ++ be16 ((encExts oes).length
        + (echExtBytes kdf aead cid mypub cipher).length)
      ++ (encExts oes ++ echExtBytes kdf aead cid mypub cipher)).drop
      (2 + 32 + 1 + sid.length + suites.length + 2 + 2 + 2
        + (encExts oes).length + 4)
      = echExtVal kdf aead cid mypub cipher := by
    refine drop_shift _ _ (be16 TLSEXT_TYPE_ech
      ++ be16 (9 + mypub.length + cipher.length)) _ 4 ?_ (by simp [be16])
    rw [hdropEonly, hE4]
    simp [List.append_assoc]
  have htake : (ver ++ rnd ++ [sid.length] ++ sid ++ be16 suites.length
      ++ suites ++ [1, 0] ++ be16 ((encExts oes).length
        + (echExtBytes kdf aead cid mypub cipher).length)
      ++ (encExts oes ++ echExtBytes kdf aead cid mypub cipher)).take
      (2 + 32 + 1 + sid.length + suites.length + 2 + 2)
      = ver ++ rnd ++ [sid.length] ++ sid ++ be16 suites.length ++ suites
        ++ [1, 0] := by
    rw [show ver ++ rnd ++ [sid.length] ++ sid ++ be16 suites.length
        ++ suites ++ [1, 0] ++ be16 ((encExts oes).length
          + (echExtBytes kdf aead cid mypub cipher).length)
        ++ (encExts oes ++ echExtBytes kdf aead cid mypub cipher)
        = (ver ++ rnd ++ [sid.length] ++ sid ++ be16 suites.length ++ suites
          ++ [1, 0]) ++ (be16 ((encExts oes).length
            + (echExtBytes kdf aead cid mypub cipher).length)
          ++ (encExts oes ++ echExtBytes kdf aead cid mypub cipher))
      from by simp [List.append_assoc]]
    exact take_at _ _ _ (by simp only [List.length_append, List.length_cons,
      List.length_nil, be16_length, hver, hrnd]; omega)
  have hWlen : (ver ++ rnd ++ [sid.length] ++ sid ++ be16 suites.length
      ++ suites ++ [1, 0] ++ be16 ((encExts oes).length
        + (echExtBytes kdf aead cid mypub cipher).length)
      ++ (encExts oes ++ echExtBytes kdf aead cid mypub cipher)).length
      = 41 + sid.length + suites.length + (encExts oes).length
        + 13 + mypub.length + cipher.length := by
    simp only [List.length_append, List.length_cons, List.length_nil,
      be16_length, hver, hrnd, hElen]
    omega
  have hde : ech_recon_de (ver ++ rnd ++ [sid.length] ++ sid
      ++ be16 suites.length ++ suites ++ [1, 0] ++ be16 ((encExts oes).length
        + (echExtBytes kdf aead cid mypub cipher).length)
      ++ (encExts oes ++ echExtBytes kdf aead cid mypub cipher))
      (2 + 32 + 1 + sid.length + suites.length + 2 + 2)
      (2 + 32 + 1 + sid.length + suites.length + 2 + 2 + 2
        + (encExts oes).length)
      (9 + mypub.length + cipher.length)
      = ver ++ rnd ++ [sid.length] ++ sid ++ be16 suites.length ++ suites
        ++ [1, 0] ++ be16 (encExts oes).length ++ encExts oes := by
    have hn1 : (ver ++ rnd ++ [sid.length] ++ sid ++ be16 suites.length
        ++ suites ++ [1, 0] ++ be16 ((encExts oes).length
          + (echExtBytes kdf aead cid mypub cipher).length)
        ++ (encExts oes ++ echExtBytes kdf aead cid mypub cipher)).length
        - (9 + mypub.length + cipher.length)
        - (2 + 32 + 1 + sid.length + suites.length + 2 + 2) - 6
        = (encExts oes).length := by rw [hWlen]; omega
    unfold ech_recon_de
    simp only []
    rw [hn1]
    rw [show 2 + 32 + 1 + sid.length + suites.length + 2 + 2 + 2
        + (encExts oes).length
        - (2 + 32 + 1 + sid.length + suites.length + 2 + 2) - 2
        = (encExts oes).length from by omega]
    rw [htake, hdropE2]
    rw [take_at (encExts oes) _ _ rfl]
    rw [take_at _ _ _ (by simp only [List.length_append, List.length_cons,
      List.length_nil, be16_length, hver, hrnd, hElen]; omega)]
    rw [show (encExts oes).length % 65536 / 256
        = (encExts oes).length / 256 % 256 from by omega]
    rw [show (encExts oes).length % 65536 % 256
        = (encExts oes).length % 256 from by omega]
    simp [be16, List.append_assoc]
  unfold ech_early_decrypt_srv_aad
  rw [hoffs]
  simp only []
  rw [if_neg (show ¬(2 + 32 + 1 + sid.length + suites.length + 2 + 2 + 2
    + (encExts oes).length = 0) from by omega)]
  rw [hsdW]
  rw [if_neg (show ¬(sid.length > SSL_MAX_SSL_SESSION_ID_LENGTH) from by
    unfold SSL_MAX_SSL_SESSION_ID_LENGTH; omega)]
  rw [hechlen]
  rw [parseClientECH_spec _ _ kdf aead cid mypub cipher hdropv hpub hcipher]
  simp only []
  rw [hde]
  unfold ech_srv_get_aad
  simp only []
  rw [be16_mod kdf, be16_mod aead]
  rw [show cid % 256 % 256 = cid % 256 from by omega]
  rw [if_pos (by simp only [List.length_append, List.length_cons,
    List.length_nil, be16_length, be24_length, hver, hrnd]; omega)]
  have hmsgdrop : (hdr ++ ver ++ rnd ++ [sid.length] ++ sid
      ++ be16 suites.length ++ suites ++ [1, 0] ++ be16 (encExts oes).length
      ++ encExts oes).drop 4
      = ver ++ rnd ++ [sid.length] ++ sid ++ be16 suites.length ++ suites
        ++ [1, 0] ++ be16 (encExts oes).length ++ encExts oes := by
    rw [show hdr ++ ver ++ rnd ++ [sid.length] ++ sid ++ be16 suites.length
        ++ suites ++ [1, 0] ++ be16 (encExts oes).length ++ encExts oes
        = hdr ++ (ver ++ rnd ++ [sid.length] ++ sid ++ be16 suites.length
          ++ suites ++ [1, 0] ++ be16 (encExts oes).length ++ encExts oes)
      from by simp [List.append_assoc]]
    exact drop_at hdr _ 4 hhdr.symm
  have hmsglen : (hdr ++ ver ++ rnd ++ [sid.length] ++ sid
      ++ be16 suites.length ++ suites ++ [1, 0] ++ be16 (encExts oes).length
      ++ encExts oes).length - 4
      = (ver ++ rnd ++ [sid.length] ++ sid ++ be16 suites.length ++ suites
        ++ [1, 0] ++ be16 (encExts oes).length ++ encExts oes).length := by
    simp only [List.length_append, List.length_cons, List.length_nil,
      be16_length, hhdr, hver, hrnd]
    omega
  unfold ech_aad_and_encrypt_aad
  rw [hmsgdrop, hmsglen]

/-- Witness for the AAD round trip: a concrete outer ClientHello with an
empty session id, one cipher suite, no other extensions and a 30-octet
ciphertext. -/
theorem aad_roundtrip_witness :
    ech_early_decrypt_srv_aad 2000
        ((ech_aad_and_encrypt_splice 0
            ([1, 0, 0, 0] ++ [3, 3] ++ List.replicate 32 7 ++ [0] ++ []
              ++ be16 2 ++ [0, 0] ++ [1, 0] ++ be16 0 ++ [])
            (echExtBytes 1 1 9 [] (List.replicate 30 5))).drop 4)
      = some (ech_aad_and_encrypt_aad 1 1 9 []
          ([1, 0, 0, 0] ++ [3, 3] ++ List.replicate 32 7 ++ [0] ++ []
            ++ be16 2 ++ [0, 0] ++ [1, 0] ++ be16 0 ++ [])) :=
  aad_roundtrip [1, 0, 0, 0] [3, 3] (List.replicate 32 7) [] [0, 0] [] 1 1 9 []
    (List.replicate 30 5) 2000 rfl rfl rfl (by decide) (by decide) (by simp)
    (by decide) (by decide) (by decide) (by decide) (by decide)

theorem flatBe16_length (ts : List Nat) :
    ((ts.map be16).flatten).length = 2 * ts.length := by
  induction ts with
  | nil => rfl
  | cons t ts ih =>
      simp only [List.map_cons, List.flatten_cons, List.length_append,
        be16_length, List.length_cons, ih]
      omega

theorem outerExtsRecord_length (ts : List Nat) :
    (outerExtsRecord ts).length = 5 + 2 * ts.length := by
  simp only [outerExtsRecord, List.length_append, be16_length,
    List.length_cons, List.length_nil, flatBe16_length]

theorem encodeInnerExtsLoop_cons (outers : List Nat) (e : Ext)
    (rest : List Ext) (b : Bool) :
    encodeInnerExtsLoop outers (e :: rest) b
      = (if outers.contains e.etype && !b then outerExtsRecord outers
          else []) ++
        (if outers.contains e.etype then [] else encExt e) ++
        encodeInnerExtsLoop outers rest (b || outers.contains e.etype) :=
  rfl

theorem encodeInnerExtsLoop_none (outers : List Nat) :
    ∀ (l : List Ext) (b : Bool), (∀ e ∈ l, outers.contains e.etype = false) →
      encodeInnerExtsLoop outers l b = encExts l := by
  intro l
  induction l with
  | nil => intro b h; rfl
  | cons e rest ih =>
      intro b h
      have he := h e (List.mem_cons_self e rest)
      rw [encodeInnerExtsLoop_cons, he]
      simp only [Bool.false_and, Bool.or_false, Bool.false_eq_true,
        if_false, List.nil_append]
      rw [ih b (fun x hx => h x (List.mem_cons_of_mem e hx)), encExts_cons]

theorem encodeInnerExtsLoop_front (outers : List Nat) :
    ∀ (pre X : List Ext), (∀ e ∈ pre, outers.contains e.etype = false) →
      encodeInnerExtsLoop outers (pre ++ X) false
        = encExts pre ++ encodeInnerExtsLoop outers X false := by
  intro pre
  induction pre with
  | nil => intro X _; simp
  | cons e rest ih =>
      intro X h
      have he := h e (List.mem_cons_self e rest)
      rw [List.cons_append, encodeInnerExtsLoop_cons, he]
      simp only [Bool.false_and, Bool.false_or, Bool.false_eq_true,
        if_false, List.nil_append]
      rw [ih X (fun x hx => h x (List.mem_cons_of_mem e hx)), encExts_cons]
      simp [List.append_assoc]

theorem encodeInnerExtsLoop_done (outers : List Nat) :
    ∀ (cr suf : List Ext), (∀ e ∈ cr, outers.contains e.etype = true) →
      (∀ e ∈ suf, outers.contains e.etype = false) →
      encodeInnerExtsLoop outers (cr ++ suf) true = encExts suf := by
  intro cr
  induction cr with
  | nil =>
      intro suf _ hs
      exact encodeInnerExtsLoop_none outers suf true hs
  | cons e rest ih =>
      intro suf hc hs
      have he := hc e (List.mem_cons_self e rest)
      rw [List.cons_append, encodeInnerExtsLoop_cons, he]
      simp only [Bool.not_true, Bool.and_false, Bool.true_or,
        Bool.false_eq_true, if_false, if_true, List.nil_append]
      exact ih suf (fun x hx => hc x (List.mem_cons_of_mem e hx)) hs

theorem encode_inner_shape (outers : List Nat) (pre comp suf : List Ext)
    (hpre : ∀ e ∈ pre, outers.contains e.etype = false)
    (hcomp : ∀ e ∈ comp, outers.contains e.etype = true)
    (hsuf : ∀ e ∈ suf, outers.contains e.etype = false)
    (hne : comp ≠ []) :
    encodeInnerExtsLoop outers (pre ++ comp ++ suf) false
      = encExts pre ++ outerExtsRecord outers ++ encExts suf := by
  cases comp with
  | nil => exact absurd rfl hne
  | cons c crest =>
      rw [show pre ++ (c :: crest) ++ suf = pre ++ (c :: (crest ++ suf))
        from by simp [List.append_assoc]]
      rw [encodeInnerExtsLoop_front outers pre _ hpre]
      have hc := hcomp c (List.mem_cons_self c crest)
      rw [encodeInnerExtsLoop_cons, hc]
      simp only [Bool.not_false, Bool.and_true, Bool.false_or, if_true,
        List.nil_append, List.append_nil]
      rw [encodeInnerExtsLoop_done outers crest suf
        (fun x hx => hcomp x (List.mem_cons_of_mem c hx)) hsuf]
      simp [List.append_assoc]

theorem findOuters_succ (buf : List Nat) (f pos rem : Nat) :
    findOuters buf (f + 1) pos rem
      = if rem = 0 then none
        else if readU16 buf pos = TLSEXT_TYPE_outer_extensions
          then some (pos, readU16 buf (pos + 2))
          else findOuters buf f (pos + 4 + readU16 buf (pos + 2))
            (rem - (readU16 buf (pos + 2) + 4)) :=
  rfl

theorem findOuters_spec (buf : List Nat) (outers : List Nat) (tail : List Nat)
    (hn : 2 * outers.length + 1 < 65536) :
    ∀ (l : List Ext) (pos rem fuel : Nat),
      (∀ e ∈ l, e.etype < 65536 ∧ e.val.length < 65536
        ∧ e.etype ≠ TLSEXT_TYPE_outer_extensions) →
      buf.drop pos = encExts l ++ (outerExtsRecord outers ++ tail) →
      (encExts l).length < rem →
      l.length < fuel →
      findOuters buf fuel pos rem
        = some (pos + (encExts l).length, 2 * outers.length + 1) := by
  intro l
  induction l with
  | nil =>
      intro pos rem fuel _ hdrop hrem hfuel
      cases fuel with
      | zero => omega
      | succ f =>
          rw [encExts_nil, List.nil_append] at hdrop
          rw [findOuters_succ]
          rw [if_neg (by simp only [encExts_nil, List.length_nil] at hrem; omega)]
          have hrec : outerExtsRecord outers ++ tail
              = be16 TLSEXT_TYPE_outer_extensions
                ++ (be16 (2 * outers.length + 1)
                  ++ ([2 * outers.length % 256]
                    ++ ((outers.map be16).flatten ++ tail))) := by
            simp [outerExtsRecord, List.append_assoc]
          rw [hrec] at hdrop
          have htype : readU16 buf pos = TLSEXT_TYPE_outer_extensions := by
            rw [readU16_eq_of_drop _ _ _ hdrop]
            exact readU16_be16 _ _ (by decide)
          have hlen2 : readU16 buf (pos + 2) = 2 * outers.length + 1 := by
            have hdrop2 : buf.drop (pos + 2)
                = be16 (2 * outers.length + 1)
                  ++ ([2 * outers.length % 256]
                    ++ ((outers.map be16).flatten ++ tail)) :=
              drop_shift _ _ (be16 TLSEXT_TYPE_outer_extensions) pos 2 hdrop
                (by simp [be16])
            rw [readU16_eq_of_drop _ _ _ hdrop2]
            exact readU16_be16 _ _ hn
          rw [htype, if_pos rfl, hlen2]
          simp
  | cons e l ih =>
      intro pos rem fuel hwf hdrop hrem hfuel
      cases fuel with
      | zero => omega
      | succ f =>
          obtain ⟨het, hvl, hne⟩ := hwf e (List.mem_cons_self e l)
          have hlen : (encExts (e :: l)).length
              = 4 + e.val.length + (encExts l).length := by
            rw [encExts_cons, List.length_append, encExt_length]
          have hsplit : encExts (e :: l) ++ (outerExtsRecord outers ++ tail)
              = (be16 e.etype ++ be16 e.val.length)
                ++ (e.val ++ (encExts l ++ (outerExtsRecord outers ++ tail))) := by
            simp [encExts_cons, encExt, List.append_assoc]
          rw [hsplit] at hdrop
          have htype : readU16 buf pos = e.etype := by
            have h2 : buf.drop pos = be16 e.etype ++ (be16 e.val.length
                ++ (e.val ++ (encExts l ++ (outerExtsRecord outers ++ tail)))) := by
              rw [hdrop]; simp [List.append_assoc]
            rw [readU16_eq_of_drop _ _ _ h2]
            exact readU16_be16 _ _ het
          have helen : readU16 buf (pos + 2) = e.val.length := by
            have h2 : buf.drop (pos + 2) = be16 e.val.length
                ++ (e.val ++ (encExts l ++ (outerExtsRecord outers ++ tail))) := by
              refine drop_shift _ _ (be16 e.etype) pos 2 ?_ (by simp [be16])
              rw [hdrop]; simp [List.append_assoc]
            rw [readU16_eq_of_drop _ _ _ h2]
            exact readU16_be16 _ _ hvl
          rw [findOuters_succ]
          rw [if_neg (by omega)]
          rw [htype, if_neg hne, helen]
          have hdrop4 : buf.drop (pos + 4)
              = e.val ++ (encExts l ++ (outerExtsRecord outers ++ tail)) :=
            drop_shift _ _ (be16 e.etype ++ be16 e.val.length) pos 4 hdrop
              (by simp [be16])
          have hdropnext : buf.drop (pos + 4 + e.val.length)
              = encExts l ++ (outerExtsRecord outers ++ tail) :=
            drop_shift _ _ e.val (pos + 4) e.val.length hdrop4 rfl
          rw [ih (pos + 4 + e.val.length) (rem - (e.val.length + 4)) f
            (fun x hx => hwf x (List.mem_cons_of_mem e hx)) hdropnext
            (by rw [hlen] at hrem; omega)
            (by rw [List.length_cons] at hfuel; omega)]
          have harith : pos + 4 + e.val.length + (encExts l).length
              = pos + (encExts (e :: l)).length := by
            rw [hlen]; omega
          rw [harith]

theorem range_map_readU16 (buf : List Nat) :
    ∀ (ts : List Nat) (tail : List Nat) (base : Nat),
      (∀ t ∈ ts, t < 65536) →
      buf.drop base = (ts.map be16).flatten ++ tail →
      (List.range ts.length).map (fun i => readU16 buf (base + 2 * i)) = ts := by
  intro ts
  induction ts with
  | nil => intro tail base _ _; rfl
  | cons t ts ih =>
      intro tail base hwf hdrop
      rw [List.length_cons, List.range_succ_eq_map, List.map_cons, List.map_map]
      have h0 : readU16 buf (base + 2 * 0) = t := by
        have h2 : buf.drop base = be16 t ++ ((ts.map be16).flatten ++ tail) := by
          rw [hdrop]; simp [List.append_assoc]
        have hb : base + 2 * 0 = base := by omega
        rw [hb, readU16_eq_of_drop _ _ _ h2]
        exact readU16_be16 _ _ (hwf t (List.mem_cons_self t ts))
      rw [h0]
      have hdrop2 : buf.drop (base + 2) = (ts.map be16).flatten ++ tail := by
        refine drop_shift _ _ (be16 t) base 2 ?_ (by simp [be16])
        rw [hdrop]; simp [List.append_assoc]
      have hcong : (List.range ts.length).map
          ((fun i => readU16 buf (base + 2 * i)) ∘ Nat.succ)
          = (List.range ts.length).map (fun i => readU16 buf (base + 2 + 2 * i)) := by
        apply List.map_congr_left
        intro a _
        show readU16 buf (base + 2 * (a + 1)) = readU16 buf (base + 2 + 2 * a)
        have hb : base + 2 * (a + 1) = base + 2 + 2 * a := by omega
        rw [hb]
      rw [hcong, ih tail (base + 2)
        (fun x hx => hwf x (List.mem_cons_of_mem t hx)) hdrop2]

theorem updateMatches_cons (etype elen off t : Nat) (ts : List Nat)
    (a : Nat × Nat) (acc : List (Nat × Nat)) :
    updateMatches etype elen off (t :: ts) (a :: acc)
      = if t = etype
          then ((elen, off) :: (updateMatches etype elen off ts acc).1,
            (updateMatches etype elen off ts acc).2.1 + (elen + 4),
            (updateMatches etype elen off ts acc).2.2 + 1)
          else (a :: (updateMatches etype elen off ts acc).1,
            (updateMatches etype elen off ts acc).2.1,
            (updateMatches etype elen off ts acc).2.2) :=
  rfl

theorem updateMatches_none (etype elen off : Nat) :
    ∀ (ts : List Nat) (acc : List (Nat × Nat)),
      (∀ t ∈ ts, t ≠ etype) → acc.length = ts.length →
      updateMatches etype elen off ts acc = (acc, 0, 0) := by
  intro ts
  induction ts with
  | nil =>
      intro acc _ hlen
      cases acc with
      | nil => rfl
      | cons a acc => simp at hlen
  | cons t ts ih =>
      intro acc hne hlen
      cases acc with
      | nil => simp at hlen
      | cons a acc =>
          rw [updateMatches_cons, if_neg (hne t (List.mem_cons_self t ts)),
            ih acc (fun x hx => hne x (List.mem_cons_of_mem t hx))
              (by simpa using hlen)]

theorem updateMatches_hit (etype elen off : Nat) :
    ∀ (ts1 : List Nat) (ts2 : List Nat) (done rest : List (Nat × Nat))
      (a : Nat × Nat),
      (∀ t ∈ ts1, t ≠ etype) → (∀ t ∈ ts2, t ≠ etype) →
      done.length = ts1.length → rest.length = ts2.length →
      updateMatches etype elen off (ts1 ++ etype :: ts2) (done ++ a :: rest)
        = (done ++ (elen, off) :: rest, elen + 4, 1) := by
  intro ts1
  induction ts1 with
  | nil =>
      intro ts2 done rest a _ h2 hd hr
      cases done with
      | nil =>
          rw [List.nil_append, List.nil_append, updateMatches_cons,
            if_pos rfl, updateMatches_none etype elen off ts2 rest h2 hr]
          simp
      | cons d done => simp at hd
  | cons t ts1 ih =>
      intro ts2 done rest a h1 h2 hd hr
      cases done with
      | nil => simp at hd
      | cons d done =>
          rw [List.cons_append, List.cons_append, updateMatches_cons,
            if_neg (h1 t (List.mem_cons_self t ts1)),
            ih ts2 done rest a (fun x hx => h1 x (List.mem_cons_of_mem t hx))
              h2 (by simpa using hd) hr]
          simp

theorem collectScan_succ (buf : List Nat) (es : Nat) (outers : List Nat)
    (f pos rem : Nat) (acc : List (Nat × Nat)) (tot found : Nat) :
    collectScan buf es outers (f + 1) pos rem acc tot found
      = if rem = 0 then (acc, tot, found)
        else
          collectScan buf es outers f (pos + 4 + readU16 buf (pos + 2))
            (rem - (readU16 buf (pos + 2) + 4))
            (updateMatches (readU16 buf pos) (readU16 buf (pos + 2))
              (pos - es) outers acc).1
            (tot + (updateMatches (readU16 buf pos) (readU16 buf (pos + 2))
              (pos - es) outers acc).2.1)
            (found + (updateMatches (readU16 buf pos) (readU16 buf (pos + 2))
              (pos - es) outers acc).2.2) :=
  rfl

theorem collectScan_zero (buf : List Nat) (es : Nat) (outers : List Nat)
    (pos : Nat) (acc : List (Nat × Nat)) (tot found : Nat) :
    ∀ fuel, collectScan buf es outers fuel pos 0 acc tot found
      = (acc, tot, found) := by
  intro fuel
  cases fuel with
  | zero => rfl
  | succ f => rfl

theorem collectScan_skip (buf : List Nat) (es : Nat) (outers : List Nat) :
    ∀ (seg : List Ext) (tail : List Nat) (f2 pos R : Nat)
      (acc : List (Nat × Nat)) (tot found : Nat),
      (∀ e ∈ seg, e.etype < 65536 ∧ e.val.length < 65536
        ∧ (∀ t ∈ outers, t ≠ e.etype)) →
      acc.length = outers.length →
      buf.drop pos = encExts seg ++ tail →
      collectScan buf es outers (seg.length + f2) pos
        ((encExts seg).length + R) acc tot found
        = collectScan buf es outers f2 (pos + (encExts seg).length) R
          acc tot found := by
  intro seg
  induction seg with
  | nil =>
      intro tail f2 pos R acc tot found _ _ _
      simp [encExts_nil]
  | cons e seg ih =>
      intro tail f2 pos R acc tot found hwf hlen hdrop
      obtain ⟨het, hvl, hne⟩ := hwf e (List.mem_cons_self e seg)
      have hlc : (encExts (e :: seg)).length
          = 4 + e.val.length + (encExts seg).length := by
        rw [encExts_cons, List.length_append, encExt_length]
      have hsplit : encExts (e :: seg) ++ tail
          = (be16 e.etype ++ be16 e.val.length)
            ++ (e.val ++ (encExts seg ++ tail)) := by
        simp [encExts_cons, encExt, List.append_assoc]
      rw [hsplit] at hdrop
      have htype : readU16 buf pos = e.etype := by
        have h2 : buf.drop pos = be16 e.etype ++ (be16 e.val.length
            ++ (e.val ++ (encExts seg ++ tail))) := by
          rw [hdrop]; simp [List.append_assoc]
        rw [readU16_eq_of_drop _ _ _ h2]
        exact readU16_be16 _ _ het
      have helen : readU16 buf (pos + 2) = e.val.length := by
        have h2 : buf.drop (pos + 2) = be16 e.val.length
            ++ (e.val ++ (encExts seg ++ tail)) := by
          refine drop_shift _ _ (be16 e.etype) pos 2 ?_ (by simp [be16])
          rw [hdrop]; simp [List.append_assoc]
        rw [readU16_eq_of_drop _ _ _ h2]
        exact readU16_be16 _ _ hvl
      have hfuel : (e :: seg).length + f2 = (seg.length + f2) + 1 := by
        rw [List.length_cons]; omega
      rw [hfuel, collectScan_succ]
      rw [if_neg (by rw [hlc]; omega)]
      rw [htype, helen]
      rw [updateMatches_none e.etype e.val.length (pos - es) outers acc hne hlen]
      simp only [Nat.add_zero]
      have hdrop4 : buf.drop (pos + 4) = e.val ++ (encExts seg ++ tail) :=
        drop_shift _ _ (be16 e.etype ++ be16 e.val.length) pos 4 hdrop
          (by simp [be16])
      have hdropnext : buf.drop (pos + 4 + e.val.length) = encExts seg ++ tail :=
        drop_shift _ _ e.val (pos + 4) e.val.length hdrop4 rfl
      have hrem : ((encExts (e :: seg)).length + R) - (e.val.length + 4)
          = (encExts seg).length + R := by
        rw [hlc]; omega
      rw [hrem]
      rw [ih tail f2 (pos + 4 + e.val.length) R acc tot found
        (fun x hx => hwf x (List.mem_cons_of_mem e hx)) hlen hdropnext]
      have harith : pos + 4 + e.val.length + (encExts seg).length
          = pos + (encExts (e :: seg)).length := by
        rw [hlc]; omega
      rw [harith]

theorem collectScan_hits (buf : List Nat) (es : Nat) :
    ∀ (comp2 : List Ext) (outers ts1 : List Nat) (done : List (Nat × Nat))
      (tail : List Nat) (f2 pos R tot found : Nat),
      outers = ts1 ++ comp2.map Ext.etype →
      outers.Nodup →
      done.length = ts1.length →
      (∀ e ∈ comp2, e.etype < 65536 ∧ e.val.length < 65536) →
      buf.drop pos = encExts comp2 ++ tail →
      es ≤ pos →
      collectScan buf es outers (comp2.length + f2) pos
        ((encExts comp2).length + R)
        (done ++ List.replicate comp2.length (0, 0)) tot found
        = collectScan buf es outers f2 (pos + (encExts comp2).length) R
          (done ++ assignOf comp2 (pos - es)) (tot + (encExts comp2).length)
          (found + comp2.length) := by
  intro comp2
  induction comp2 with
  | nil =>
      intro outers ts1 done tail f2 pos R tot found _ _ _ _ _ _
      simp [assignOf, encExts_nil]
  | cons e comp2 ih =>
      intro outers ts1 done tail f2 pos R tot found houters hnodup hdone hwf
        hdrop hpos
      obtain ⟨het, hvl⟩ := hwf e (List.mem_cons_self e comp2)
      have hlc : (encExts (e :: comp2)).length
          = 4 + e.val.length + (encExts comp2).length := by
        rw [encExts_cons, List.length_append, encExt_length]
      have hsplit : encExts (e :: comp2) ++ tail
          = (be16 e.etype ++ be16 e.val.length)
            ++ (e.val ++ (encExts comp2 ++ tail)) := by
        simp [encExts_cons, encExt, List.append_assoc]
      rw [hsplit] at hdrop
      have htype : readU16 buf pos = e.etype := by
        have h2 : buf.drop pos = be16 e.etype ++ (be16 e.val.length
            ++ (e.val ++ (encExts comp2 ++ tail))) := by
          rw [hdrop]; simp [List.append_assoc]
        rw [readU16_eq_of_drop _ _ _ h2]
        exact readU16_be16 _ _ het
      have helen : readU16 buf (pos + 2) = e.val.length := by
        have h2 : buf.drop (pos + 2) = be16 e.val.length
            ++ (e.val ++ (encExts comp2 ++ tail)) := by
          refine drop_shift _ _ (be16 e.etype) pos 2 ?_ (by simp [be16])
          rw [hdrop]; simp [List.append_assoc]
        rw [readU16_eq_of_drop _ _ _ h2]
        exact readU16_be16 _ _ hvl
      have hfuel : (e :: comp2).length + f2 = (comp2.length + f2) + 1 := by
        rw [List.length_cons]; omega
      rw [hfuel, collectScan_succ]
      rw [if_neg (by rw [hlc]; omega)]
      rw [htype, helen]
      have hrep : List.replicate (e :: comp2).length ((0 : Nat), (0 : Nat))
          = (0, 0) :: List.replicate comp2.length (0, 0) := by
        rw [List.length_cons, List.replicate_succ]
      rw [hrep]
      rw [List.map_cons] at houters
      rw [houters] at hnodup
      have h1 : ∀ t ∈ ts1, t ≠ e.etype := by
        intro t ht heq
        have hd := (List.nodup_append.mp hnodup).2.2
        exact hd ht (by rw [heq]; exact List.mem_cons_self _ _)
      have h2 : ∀ t ∈ comp2.map Ext.etype, t ≠ e.etype := by
        have hn2 := (List.nodup_append.mp hnodup).2.1
        have hnotin := (List.nodup_cons.mp hn2).1
        intro t ht heq
        exact hnotin (heq ▸ ht)
      rw [houters]
      rw [updateMatches_hit e.etype e.val.length (pos - es) ts1
        (comp2.map Ext.etype) done (List.replicate comp2.length (0, 0)) (0, 0)
        h1 h2 hdone (by simp)]
      simp only []
      have hacc2 : done ++ (e.val.length, pos - es)
            :: List.replicate comp2.length ((0 : Nat), (0 : Nat))
          = (done ++ [(e.val.length, pos - es)])
            ++ List.replicate comp2.length (0, 0) := by
        simp
      rw [hacc2]
      have hrem : ((encExts (e :: comp2)).length + R) - (e.val.length + 4)
          = (encExts comp2).length + R := by
        rw [hlc]; omega
      rw [hrem]
      have hdrop4 : buf.drop (pos + 4) = e.val ++ (encExts comp2 ++ tail) :=
        drop_shift _ _ (be16 e.etype ++ be16 e.val.length) pos 4 hdrop
          (by simp [be16])
      have hdropnext : buf.drop (pos + 4 + e.val.length)
          = encExts comp2 ++ tail :=
        drop_shift _ _ e.val (pos + 4) e.val.length hdrop4 rfl
      rw [ih (ts1 ++ e.etype :: comp2.map Ext.etype) (ts1 ++ [e.etype])
        (done ++ [(e.val.length, pos - es)]) tail f2 (pos + 4 + e.val.length)
        R (tot + (e.val.length + 4)) (found + 1) (by simp) hnodup
        (by simp [hdone]) (fun x hx => hwf x (List.mem_cons_of_mem e hx))
        hdropnext (by omega)]
      have hoff : pos + 4 + e.val.length - es = (pos - es) + 4 + e.val.length := by
        omega
      rw [hoff]
      have hacc3 : (done ++ [(e.val.length, pos - es)])
            ++ assignOf comp2 ((pos - es) + 4 + e.val.length)
          = done ++ assignOf (e :: comp2) (pos - es) := by
        rw [show assignOf (e :: comp2) (pos - es)
            = (e.val.length, pos - es)
              :: assignOf comp2 ((pos - es) + 4 + e.val.length) from rfl]
        simp
      rw [hacc3]
      have hp : pos + 4 + e.val.length + (encExts comp2).length
          = pos + (encExts (e :: comp2)).length := by
        rw [hlc]; omega
      rw [hp]
      have htot : tot + (e.val.length + 4) + (encExts comp2).length
          = tot + (encExts (e :: comp2)).length := by
        rw [hlc]; omega
      rw [htot]
      have hfound : found + 1 + comp2.length = found + (e :: comp2).length := by
        rw [List.length_cons]; omega
      rw [hfound]

theorem assignOf_length : ∀ (l : List Ext) (off : Nat),
    (assignOf l off).length = l.length := by
  intro l
  induction l with
  | nil => intro off; rfl
  | cons e l ih =>
      intro off
      rw [show assignOf (e :: l) off
          = (e.val.length, off) :: assignOf l (off + 4 + e.val.length) from rfl]
      rw [List.length_cons, List.length_cons, ih]

theorem spliceOut_assign (B : List Nat) :
    ∀ (l : List Ext) (tail : List Nat) (off : Nat),
      B.drop off = encExts l ++ tail →
      spliceOut B (l.map Ext.etype) (assignOf l off) = encExts l := by
  intro l
  induction l with
  | nil => intro tail off _; rfl
  | cons e l ih =>
      intro tail off hdrop
      have hsplit : encExts (e :: l) ++ tail
          = (be16 e.etype ++ be16 e.val.length)
            ++ (e.val ++ (encExts l ++ tail)) := by
        simp [encExts_cons, encExt, List.append_assoc]
      rw [hsplit] at hdrop
      have hdrop4 : B.drop (off + 4) = e.val ++ (encExts l ++ tail) :=
        drop_shift _ _ (be16 e.etype ++ be16 e.val.length) off 4 hdrop
          (by simp [be16])
      have hdropnext : B.drop (off + 4 + e.val.length) = encExts l ++ tail :=
        drop_shift _ _ e.val (off + 4) e.val.length hdrop4 rfl
      show be16 e.etype ++ be16 e.val.length
          ++ (B.drop (off + 4)).take e.val.length
          ++ spliceOut B (l.map Ext.etype) (assignOf l (off + 4 + e.val.length))
        = encExts (e :: l)
      rw [hdrop4]
      rw [show (e.val ++ (encExts l ++ tail)).take e.val.length = e.val
        from take_at _ _ _ rfl]
      rw [ih tail (off + 4 + e.val.length) hdropnext]
      simp [encExts_cons, encExt, List.append_assoc]

/-- Decoding an encoded inner whose extension block is `encExts pre`, then
the outer_extensions record for the contiguous compressed block `comp`, then
`encExts suf`, against an outer ClientHello whose extensions are
`obPre ++ comp ++ obSuf`, reconstructs the original inner body exactly. -/
theorem decode_inner_spec (ver rnd sid suites : List Nat)
    (pre comp suf obPre obSuf : List Ext)
    (hver : ver.length = 2) (hrnd : rnd.length = 32)
    (hsl : suites.length < 65536)
    (hwfI : ∀ e ∈ pre ++ comp ++ suf, e.etype < 65536 ∧ e.val.length < 65536)
    (hwfO : ∀ e ∈ obPre ++ obSuf, e.etype < 65536 ∧ e.val.length < 65536)
    (hpreO : ∀ e ∈ pre, e.etype ≠ TLSEXT_TYPE_outer_extensions)
    (hobdis : ∀ e ∈ obPre ++ obSuf, e.etype ∉ comp.map Ext.etype)
    (hnodup : (comp.map Ext.etype).Nodup)
    (hne : comp ≠ [])
    (hn20 : comp.length ≤ ECH_OUTERS_MAX)
    (hEB : (encExts pre ++ outerExtsRecord (comp.map Ext.etype)
      ++ encExts suf).length < 65536)
    (hFE : (encExts (pre ++ comp ++ suf)).length < 65536) :
    ech_decode_inner
        (ver ++ rnd ++ [0] ++ be16 suites.length ++ suites ++ [1, 0]
          ++ be16 (encExts pre ++ outerExtsRecord (comp.map Ext.etype)
            ++ encExts suf).length
          ++ (encExts pre ++ outerExtsRecord (comp.map Ext.etype)
            ++ encExts suf))
        sid
        (be16 (encExts (obPre ++ comp ++ obSuf)).length
          ++ encExts (obPre ++ comp ++ obSuf))
        0
      = some ([1]
          ++ be24 (ver ++ rnd ++ [sid.length] ++ sid ++ be16 suites.length
            ++ suites ++ [1, 0] ++ be16 (encExts (pre ++ comp ++ suf)).length
            ++ encExts (pre ++ comp ++ suf)).length
          ++ (ver ++ rnd ++ [sid.length] ++ sid ++ be16 suites.length
            ++ suites ++ [1, 0] ++ be16 (encExts (pre ++ comp ++ suf)).length
            ++ encExts (pre ++ comp ++ suf))) := by
  have h2n : 2 * comp.length < 256 := by
    unfold ECH_OUTERS_MAX at hn20; omega
  have hcne : comp.length ≠ 0 := by
    cases comp with
    | nil => exact absurd rfl hne
    | cons a b => simp
  have hrecl : (outerExtsRecord (comp.map Ext.etype)).length
      = 5 + 2 * comp.length := by
    rw [outerExtsRecord_length, List.length_map]
  have hEBlen : (encExts pre ++ outerExtsRecord (comp.map Ext.etype)
      ++ encExts suf).length
      = (encExts pre).length + (5 + 2 * comp.length)
        + (encExts suf).length := by
    rw [List.length_append, List.length_append, hrecl]
  have hW2len : (ver ++ rnd ++ [0] ++ be16 suites.length ++ suites ++ [1, 0]
      ++ be16 (encExts pre ++ outerExtsRecord (comp.map Ext.etype)
        ++ encExts suf).length
      ++ (encExts pre ++ outerExtsRecord (comp.map Ext.etype)
        ++ encExts suf)).length
      = 41 + suites.length + ((encExts pre).length + (5 + 2 * comp.length)
        + (encExts suf).length) := by
    simp only [List.length_append, List.length_cons, List.length_nil,
      be16_length, hver, hrnd, hrecl]
    omega
  have hencI : encExts (pre ++ comp ++ suf)
      = encExts pre ++ (encExts comp ++ encExts suf) := by
    rw [encExts_append, encExts_append]
    simp [List.append_assoc]
  have hencOB : encExts (obPre ++ comp ++ obSuf)
      = encExts obPre ++ (encExts comp ++ encExts obSuf) := by
    rw [encExts_append, encExts_append]
    simp [List.append_assoc]
  have hne0 : ¬((ver ++ rnd ++ [0] ++ be16 suites.length ++ suites
      ++ [1, 0] ++ be16 (encExts pre ++ outerExtsRecord (comp.map Ext.etype)
        ++ encExts suf).length
      ++ (encExts pre ++ outerExtsRecord (comp.map Ext.etype)
        ++ encExts suf)).length = 0) := by
    rw [hW2len]; omega
  unfold ech_decode_inner
  simp only []
  rw [if_neg hne0]
  have htk34 : (ver ++ rnd ++ [0] ++ be16 suites.length ++ suites ++ [1, 0]
      ++ be16 (encExts pre ++ outerExtsRecord (comp.map Ext.etype)
        ++ encExts suf).length
      ++ (encExts pre ++ outerExtsRecord (comp.map Ext.etype)
        ++ encExts suf)).take 34 = ver ++ rnd := by
    rw [show ver ++ rnd ++ [0] ++ be16 suites.length ++ suites ++ [1, 0]
        ++ be16 (encExts pre ++ outerExtsRecord (comp.map Ext.etype)
          ++ encExts suf).length
        ++ (encExts pre ++ outerExtsRecord (comp.map Ext.etype)
          ++ encExts suf)
        = (ver ++ rnd) ++ ([0] ++ (be16 suites.length ++ (suites ++ ([1, 0]
          ++ (be16 (encExts pre ++ outerExtsRecord (comp.map Ext.etype)
            ++ encExts suf).length
          ++ (encExts pre ++ outerExtsRecord (comp.map Ext.etype)
            ++ encExts suf))))))
      from by simp [List.append_assoc]]
    exact take_at _ _ _ (by simp [hver, hrnd])
  have hdp35 : (ver ++ rnd ++ [0] ++ be16 suites.length ++ suites ++ [1, 0]
      ++ be16 (encExts pre ++ outerExtsRecord (comp.map Ext.etype)
        ++ encExts suf).length
      ++ (encExts pre ++ outerExtsRecord (comp.map Ext.etype)
        ++ encExts suf)).drop 35
      = be16 suites.length ++ (suites ++ ([1, 0]
        ++ (be16 (encExts pre ++ outerExtsRecord (comp.map Ext.etype)
          ++ encExts suf).length
        ++ (encExts pre ++ outerExtsRecord (comp.map Ext.etype)
          ++ encExts suf)))) := by
    rw [show ver ++ rnd ++ [0] ++ be16 suites.length ++ suites ++ [1, 0]
        ++ be16 (encExts pre ++ outerExtsRecord (comp.map Ext.etype)
          ++ encExts suf).length
        ++ (encExts pre ++ outerExtsRecord (comp.map Ext.etype)
          ++ encExts suf)
        = (ver ++ rnd ++ [0]) ++ (be16 suites.length ++ (suites ++ ([1, 0]
          ++ (be16 (encExts pre ++ outerExtsRecord (comp.map Ext.etype)
            ++ encExts suf).length
          ++ (encExts pre ++ outerExtsRecord (comp.map Ext.etype)
            ++ encExts suf)))))
      from by simp [List.append_assoc]]
    exact drop_at _ _ _ (by simp [hver, hrnd])
  have hidc : spliceSessId (ver ++ rnd ++ [0] ++ be16 suites.length ++ suites
      ++ [1, 0] ++ be16 (encExts pre ++ outerExtsRecord (comp.map Ext.etype)
        ++ encExts suf).length
      ++ (encExts pre ++ outerExtsRecord (comp.map Ext.etype)
        ++ encExts suf)) sid
      = ver ++ rnd ++ [sid.length] ++ sid ++ be16 suites.length ++ suites
        ++ [1, 0] ++ be16 (encExts pre ++ outerExtsRecord (comp.map Ext.etype)
          ++ encExts suf).length
        ++ (encExts pre ++ outerExtsRecord (comp.map Ext.etype)
          ++ encExts suf) := by
    unfold spliceSessId
    rw [htk34, hdp35]
    simp [List.append_assoc]
  rw [hidc]
  have hsuites : readU16 (ver ++ rnd ++ [0] ++ be16 suites.length ++ suites
      ++ [1, 0] ++ be16 (encExts pre ++ outerExtsRecord (comp.map Ext.etype)
        ++ encExts suf).length
      ++ (encExts pre ++ outerExtsRecord (comp.map Ext.etype)
        ++ encExts suf)) 35 = suites.length := by
    rw [readU16_eq_of_drop _ _ _ hdp35]
    exact readU16_be16 _ _ hsl
  rw [hsuites]
  have hnotgt : ¬(34 + 1 + sid.length + 2 + suites.length + 2
      > (ver ++ rnd ++ [0] ++ be16 suites.length ++ suites ++ [1, 0]
        ++ be16 (encExts pre ++ outerExtsRecord (comp.map Ext.etype)
          ++ encExts suf).length
        ++ (encExts pre ++ outerExtsRecord (comp.map Ext.etype)
          ++ encExts suf)).length + sid.length) := by
    rw [hW2len]; omega
  rw [if_neg hnotgt]
  have hrem0 : readU16 (ver ++ rnd ++ [sid.length] ++ sid
      ++ be16 suites.length ++ suites ++ [1, 0]
      ++ be16 (encExts pre ++ outerExtsRecord (comp.map Ext.etype)
        ++ encExts suf).length
      ++ (encExts pre ++ outerExtsRecord (comp.map Ext.etype)
        ++ encExts suf)) (34 + 1 + sid.length + 2 + suites.length + 2)
      = (encExts pre ++ outerExtsRecord (comp.map Ext.etype)
        ++ encExts suf).length := by
    rw [show ver ++ rnd ++ [sid.length] ++ sid ++ be16 suites.length ++ suites
        ++ [1, 0] ++ be16 (encExts pre ++ outerExtsRecord (comp.map Ext.etype)
          ++ encExts suf).length
        ++ (encExts pre ++ outerExtsRecord (comp.map Ext.etype)
          ++ encExts suf)
        = (ver ++ rnd ++ [sid.length] ++ sid ++ be16 suites.length ++ suites
          ++ [1, 0]) ++ (be16 (encExts pre
            ++ outerExtsRecord (comp.map Ext.etype) ++ encExts suf).length
          ++ (encExts pre ++ outerExtsRecord (comp.map Ext.etype)
            ++ encExts suf))
      from by simp [List.append_assoc]]
    rw [readU16_at _ _ _ (by simp [hver, hrnd]; omega)]
    exact readU16_be16 _ _ hEB
  rw [hrem0]
  have hdrop2 : (ver ++ rnd ++ [sid.length] ++ sid ++ be16 suites.length
      ++ suites ++ [1, 0] ++ be16 (encExts pre
        ++ outerExtsRecord (comp.map Ext.etype) ++ encExts suf).length
      ++ (encExts pre ++ outerExtsRecord (comp.map Ext.etype)
        ++ encExts suf)).drop (34 + 1 + sid.length + 2 + suites.length + 2 + 2)
      = encExts pre ++ (outerExtsRecord (comp.map Ext.etype)
        ++ encExts suf) := by
    rw [show ver ++ rnd ++ [sid.length] ++ sid ++ be16 suites.length ++ suites
        ++ [1, 0] ++ be16 (encExts pre ++ outerExtsRecord (comp.map Ext.etype)
          ++ encExts suf).length
        ++ (encExts pre ++ outerExtsRecord (comp.map Ext.etype)
          ++ encExts suf)
        = (ver ++ rnd ++ [sid.length] ++ sid ++ be16 suites.length ++ suites
          ++ [1, 0] ++ be16 (encExts pre
            ++ outerExtsRecord (comp.map Ext.etype) ++ encExts suf).length)
          ++ (encExts pre ++ (outerExtsRecord (comp.map Ext.etype)
            ++ encExts suf))
      from by simp [List.append_assoc]]
    exact drop_at _ _ _ (by simp [hver, hrnd]; omega)
  have hfo := findOuters_spec (ver ++ rnd ++ [sid.length] ++ sid
      ++ be16 suites.length ++ suites ++ [1, 0]
      ++ be16 (encExts pre ++ outerExtsRecord (comp.map Ext.etype)
        ++ encExts suf).length
      ++ (encExts pre ++ outerExtsRecord (comp.map Ext.etype)
        ++ encExts suf))
    (comp.map Ext.etype) (encExts suf)
    (by rw [List.length_map]; omega) pre
    (34 + 1 + sid.length + 2 + suites.length + 2 + 2)
    ((encExts pre ++ outerExtsRecord (comp.map Ext.etype)
      ++ encExts suf).length)
    ((encExts pre ++ outerExtsRecord (comp.map Ext.etype)
      ++ encExts suf).length + 1)
    (fun e he => ⟨(hwfI e (List.mem_append_left _
        (List.mem_append_left _ he))).1,
      (hwfI e (List.mem_append_left _ (List.mem_append_left _ he))).2,
      hpreO e he⟩)
    hdrop2
    (by rw [hEBlen]; omega)
    (by have h := encExts_length_ge pre; rw [hEBlen]; omega)
  rw [List.length_map] at hfo
  rw [hfo]
  simp only []
  have hdiv : (2 * comp.length + 1) / 2 = comp.length := by omega
  rw [hdiv]
  have hdroprec : (ver ++ rnd ++ [sid.length] ++ sid ++ be16 suites.length
      ++ suites ++ [1, 0] ++ be16 (encExts pre
        ++ outerExtsRecord (comp.map Ext.etype) ++ encExts suf).length
      ++ (encExts pre ++ outerExtsRecord (comp.map Ext.etype)
        ++ encExts suf)).drop
      (34 + 1 + sid.length + 2 + suites.length + 2 + 2
        + (encExts pre).length)
      = outerExtsRecord (comp.map Ext.etype) ++ encExts suf :=
    drop_shift _ _ (encExts pre)
      (34 + 1 + sid.length + 2 + suites.length + 2 + 2)
      (encExts pre).length hdrop2 rfl
  have hrecsplit : outerExtsRecord (comp.map Ext.etype) ++ encExts suf
      = (be16 TLSEXT_TYPE_outer_extensions ++ be16 (2 * comp.length + 1))
        ++ ([2 * comp.length % 256]
          ++ (((comp.map Ext.etype).map be16).flatten ++ encExts suf)) := by
    simp [outerExtsRecord, List.length_map, List.append_assoc]
  have hslen : (ver ++ rnd ++ [sid.length] ++ sid ++ be16 suites.length
      ++ suites ++ [1, 0] ++ be16 (encExts pre
        ++ outerExtsRecord (comp.map Ext.etype) ++ encExts suf).length
      ++ (encExts pre ++ outerExtsRecord (comp.map Ext.etype)
        ++ encExts suf)).getD
      (34 + 1 + sid.length + 2 + suites.length + 2 + 2
        + (encExts pre).length + 4) 0
      = 2 * comp.length % 256 := by
    have h4 : (ver ++ rnd ++ [sid.length] ++ sid ++ be16 suites.length
        ++ suites ++ [1, 0] ++ be16 (encExts pre
          ++ outerExtsRecord (comp.map Ext.etype) ++ encExts suf).length
        ++ (encExts pre ++ outerExtsRecord (comp.map Ext.etype)
          ++ encExts suf)).drop
        (34 + 1 + sid.length + 2 + suites.length + 2 + 2
          + (encExts pre).length + 4)
        = [2 * comp.length % 256]
          ++ (((comp.map Ext.etype).map be16).flatten ++ encExts suf) := by
      refine drop_shift _ _ (be16 TLSEXT_TYPE_outer_extensions
        ++ be16 (2 * comp.length + 1)) _ 4 ?_ (by simp [be16])
      rw [hdroprec, hrecsplit]
    rw [getD_eq_of_drop _ _ _ 0 h4]
    rfl
  rw [hslen]
  have hsd2 : 2 * comp.length % 256 / 2 = comp.length := by omega
  rw [hsd2]
  rw [if_neg (by omega)]
  have hnotor : ¬(comp.length = 0 ∨ comp.length > ECH_OUTERS_MAX) := by
    unfold ECH_OUTERS_MAX at hn20 ⊢; omega
  rw [if_neg hnotor]
  have hdropflat : (ver ++ rnd ++ [sid.length] ++ sid ++ be16 suites.length
      ++ suites ++ [1, 0] ++ be16 (encExts pre
        ++ outerExtsRecord (comp.map Ext.etype) ++ encExts suf).length
      ++ (encExts pre ++ outerExtsRecord (comp.map Ext.etype)
        ++ encExts suf)).drop
      (34 + 1 + sid.length + 2 + suites.length + 2 + 2
        + (encExts pre).length + 5)
      = ((comp.map Ext.etype).map be16).flatten ++ encExts suf := by
    refine drop_shift _ _ (be16 TLSEXT_TYPE_outer_extensions
      ++ be16 (2 * comp.length + 1) ++ [2 * comp.length % 256]) _ 5 ?_
      (by simp [be16])
    rw [hdroprec, hrecsplit]
    simp [List.append_assoc]
  have hmap0 : ∀ t ∈ comp.map Ext.etype, t < 65536 := by
    intro t ht
    obtain ⟨e, he, rfl⟩ := List.mem_map.mp ht
    exact (hwfI e (List.mem_append_left _ (List.mem_append_right _ he))).1
  have hmaps := range_map_readU16 (ver ++ rnd ++ [sid.length] ++ sid
      ++ be16 suites.length ++ suites ++ [1, 0]
      ++ be16 (encExts pre ++ outerExtsRecord (comp.map Ext.etype)
        ++ encExts suf).length
      ++ (encExts pre ++ outerExtsRecord (comp.map Ext.etype)
        ++ encExts suf))
    (comp.map Ext.etype) (encExts suf)
    (34 + 1 + sid.length + 2 + suites.length + 2 + 2
      + (encExts pre).length + 5)
    hmap0 hdropflat
  rw [List.length_map] at hmaps
  rw [hmaps]
  have hfuelstage : (be16 (encExts (obPre ++ comp ++ obSuf)).length
      ++ encExts (obPre ++ comp ++ obSuf)).length - (0 + 2) + 1
      = obPre.length + (comp.length + (obSuf.length
        + ((encExts obPre).length + (encExts comp).length
          + (encExts obSuf).length + 1
          - (obPre.length + comp.length + obSuf.length)))) := by
    have g1 := encExts_length_ge obPre
    have g2 := encExts_length_ge comp
    have g3 := encExts_length_ge obSuf
    simp only [List.length_append, be16_length, hencOB]
    omega
  have hextslen : (be16 (encExts (obPre ++ comp ++ obSuf)).length
      ++ encExts (obPre ++ comp ++ obSuf)).length - (0 + 2)
      = (encExts obPre).length + ((encExts comp).length
        + ((encExts obSuf).length + 0)) := by
    simp only [List.length_append, be16_length, hencOB]
    omega
  rw [hfuelstage, hextslen]
  have hOBdrop : (be16 (encExts (obPre ++ comp ++ obSuf)).length
      ++ encExts (obPre ++ comp ++ obSuf)).drop (0 + 2)
      = encExts obPre ++ (encExts comp ++ encExts obSuf) := by
    rw [drop_at _ _ _ (by simp)]
    exact hencOB
  have hwfObPre : ∀ e ∈ obPre, e.etype < 65536 ∧ e.val.length < 65536
      ∧ (∀ t ∈ comp.map Ext.etype, t ≠ e.etype) := by
    intro e he
    refine ⟨(hwfO e (List.mem_append_left _ he)).1,
      (hwfO e (List.mem_append_left _ he)).2, ?_⟩
    intro t ht heq
    exact hobdis e (List.mem_append_left _ he) (heq ▸ ht)
  have hwfObSuf : ∀ e ∈ obSuf, e.etype < 65536 ∧ e.val.length < 65536
      ∧ (∀ t ∈ comp.map Ext.etype, t ≠ e.etype) := by
    intro e he
    refine ⟨(hwfO e (List.mem_append_right _ he)).1,
      (hwfO e (List.mem_append_right _ he)).2, ?_⟩
    intro t ht heq
    exact hobdis e (List.mem_append_right _ he) (heq ▸ ht)
  rw [collectScan_skip (be16 (encExts (obPre ++ comp ++ obSuf)).length
      ++ encExts (obPre ++ comp ++ obSuf)) (0 + 2) (comp.map Ext.etype)
    obPre (encExts comp ++ encExts obSuf)
    (comp.length + (obSuf.length + ((encExts obPre).length
      + (encExts comp).length + (encExts obSuf).length + 1
      - (obPre.length + comp.length + obSuf.length)))) (0 + 2)
    ((encExts comp).length + ((encExts obSuf).length + 0))
    (List.replicate comp.length (0, 0)) 0 0 hwfObPre (by simp) hOBdrop]
  have hOBdropC : (be16 (encExts (obPre ++ comp ++ obSuf)).length
      ++ encExts (obPre ++ comp ++ obSuf)).drop
      ((0 + 2) + (encExts obPre).length)
      = encExts comp ++ encExts obSuf :=
    drop_shift _ _ (encExts obPre) (0 + 2) (encExts obPre).length hOBdrop rfl
  have hwfComp : ∀ e ∈ comp, e.etype < 65536 ∧ e.val.length < 65536 :=
    fun e he => hwfI e (List.mem_append_left _ (List.mem_append_right _ he))
  have hhits := collectScan_hits (be16 (encExts (obPre ++ comp ++ obSuf)).length
      ++ encExts (obPre ++ comp ++ obSuf)) (0 + 2) comp (comp.map Ext.etype)
    ([] : List Nat) ([] : List (Nat × Nat)) (encExts obSuf)
    (obSuf.length + ((encExts obPre).length + (encExts comp).length
      + (encExts obSuf).length + 1
      - (obPre.length + comp.length + obSuf.length)))
    ((0 + 2) + (encExts obPre).length) ((encExts obSuf).length + 0) 0 0
    (by simp) hnodup rfl hwfComp hOBdropC (by omega)
  rw [List.nil_append] at hhits
  rw [List.nil_append] at hhits
  rw [hhits]
  have hOBdropS : (be16 (encExts (obPre ++ comp ++ obSuf)).length
      ++ encExts (obPre ++ comp ++ obSuf)).drop
      ((0 + 2) + (encExts obPre).length + (encExts comp).length)
      = encExts obSuf ++ ([] : List Nat) := by
    rw [drop_shift _ _ (encExts comp) ((0 + 2) + (encExts obPre).length)
      (encExts comp).length hOBdropC rfl]
    simp
  rw [collectScan_skip (be16 (encExts (obPre ++ comp ++ obSuf)).length
      ++ encExts (obPre ++ comp ++ obSuf)) (0 + 2) (comp.map Ext.etype)
    obSuf ([] : List Nat)
    ((encExts obPre).length + (encExts comp).length
      + (encExts obSuf).length + 1
      - (obPre.length + comp.length + obSuf.length))
    ((0 + 2) + (encExts obPre).length + (encExts comp).length) 0
    (assignOf comp ((0 + 2) + (encExts obPre).length - (0 + 2)))
    (0 + (encExts comp).length) (0 + comp.length)
    hwfObSuf (by simp [assignOf_length]) hOBdropS]
  rw [collectScan_zero _ _ _ _ _ _ _ ((encExts obPre).length
    + (encExts comp).length + (encExts obSuf).length + 1
    - (obPre.length + comp.length + obSuf.length))]
  simp only []
  rw [if_neg (show ¬(0 + comp.length ≠ comp.length) from by omega)]
  have htakeone : (ver ++ rnd ++ [sid.length] ++ sid ++ be16 suites.length
      ++ suites ++ [1, 0] ++ be16 (encExts pre
        ++ outerExtsRecord (comp.map Ext.etype) ++ encExts suf).length
      ++ (encExts pre ++ outerExtsRecord (comp.map Ext.etype)
        ++ encExts suf)).take
      (34 + 1 + sid.length + 2 + suites.length + 2 + 2
        + (encExts pre).length)
      = (ver ++ rnd ++ [sid.length] ++ sid ++ be16 suites.length ++ suites
        ++ [1, 0] ++ be16 (encExts pre
          ++ outerExtsRecord (comp.map Ext.etype) ++ encExts suf).length)
        ++ encExts pre := by
    rw [show ver ++ rnd ++ [sid.length] ++ sid ++ be16 suites.length ++ suites
        ++ [1, 0] ++ be16 (encExts pre ++ outerExtsRecord (comp.map Ext.etype)
          ++ encExts suf).length
        ++ (encExts pre ++ outerExtsRecord (comp.map Ext.etype)
          ++ encExts suf)
        = ((ver ++ rnd ++ [sid.length] ++ sid ++ be16 suites.length ++ suites
          ++ [1, 0] ++ be16 (encExts pre
            ++ outerExtsRecord (comp.map Ext.etype) ++ encExts suf).length)
          ++ encExts pre)
          ++ (outerExtsRecord (comp.map Ext.etype) ++ encExts suf)
      from by simp [List.append_assoc]]
    exact take_at _ _ _ (by simp [hver, hrnd]; omega)
  rw [htakeone]
  have hoffA : (0 + 2) + (encExts obPre).length - (0 + 2)
      = (encExts obPre).length := by omega
  rw [hoffA]
  have hOBd2 : (be16 (encExts (obPre ++ comp ++ obSuf)).length
      ++ encExts (obPre ++ comp ++ obSuf)).drop (0 + 2)
      = encExts (obPre ++ comp ++ obSuf) :=
    drop_at _ _ _ (by simp)
  rw [hOBd2]
  have hsplice : spliceOut (encExts (obPre ++ comp ++ obSuf))
      (comp.map Ext.etype) (assignOf comp (encExts obPre).length)
      = encExts comp := by
    refine spliceOut_assign _ comp (encExts obSuf) (encExts obPre).length ?_
    rw [hencOB]
    exact drop_at _ _ _ rfl
  rw [hsplice]
  have hdroptail : (ver ++ rnd ++ [sid.length] ++ sid ++ be16 suites.length
      ++ suites ++ [1, 0] ++ be16 (encExts pre
        ++ outerExtsRecord (comp.map Ext.etype) ++ encExts suf).length
      ++ (encExts pre ++ outerExtsRecord (comp.map Ext.etype)
        ++ encExts suf)).drop
      (34 + 1 + sid.length + 2 + suites.length + 2 + 2
        + (encExts pre).length + (5 + 2 * comp.length))
      = encExts suf := by
    refine drop_shift _ _ (outerExtsRecord (comp.map Ext.etype)) _
      (5 + 2 * comp.length) ?_ (by rw [hrecl])
    exact hdroprec
  rw [hdroptail]
  have htamt : (ver ++ rnd ++ [0] ++ be16 suites.length
      ++ suites ++ [1, 0] ++ be16 (encExts pre
        ++ outerExtsRecord (comp.map Ext.etype) ++ encExts suf).length
      ++ (encExts pre ++ outerExtsRecord (comp.map Ext.etype)
        ++ encExts suf)).length + sid.length
      - (34 + 1 + sid.length + 2 + suites.length + 2 + 2
        + (encExts pre).length) - (5 + 2 * comp.length)
      = (encExts suf).length := by
    rw [hW2len]; omega
  rw [htamt, List.take_length]
  have hlen24 : 4 + ((ver ++ rnd ++ [0] ++ be16 suites.length
      ++ suites ++ [1, 0] ++ be16 (encExts pre
        ++ outerExtsRecord (comp.map Ext.etype) ++ encExts suf).length
      ++ (encExts pre ++ outerExtsRecord (comp.map Ext.etype)
        ++ encExts suf)).length + sid.length)
      - (5 + 2 * comp.length) + (0 + (encExts comp).length) - 4
      = (ver ++ rnd ++ [sid.length] ++ sid ++ be16 suites.length ++ suites
        ++ [1, 0] ++ be16 (encExts (pre ++ comp ++ suf)).length
        ++ encExts (pre ++ comp ++ suf)).length := by
    rw [hW2len]
    simp only [List.length_append, List.length_cons, List.length_nil,
      be16_length, hver, hrnd, hencI]
    omega
  rw [hlen24]
  have hinit : readU16 (([1] ++ be24 (ver ++ rnd ++ [sid.length] ++ sid
      ++ be16 suites.length ++ suites ++ [1, 0]
      ++ be16 (encExts (pre ++ comp ++ suf)).length
      ++ encExts (pre ++ comp ++ suf)).length)
      ++ (((ver ++ rnd ++ [sid.length] ++ sid ++ be16 suites.length ++ suites
        ++ [1, 0] ++ be16 (encExts pre
          ++ outerExtsRecord (comp.map Ext.etype) ++ encExts suf).length)
        ++ encExts pre) ++ encExts comp ++ encExts suf))
      (34 + 1 + sid.length + 2 + suites.length + 2 + 4)
      = (encExts pre ++ outerExtsRecord (comp.map Ext.etype)
        ++ encExts suf).length := by
    have hsp1 : ([1] ++ be24 (ver ++ rnd ++ [sid.length] ++ sid
        ++ be16 suites.length ++ suites ++ [1, 0]
        ++ be16 (encExts (pre ++ comp ++ suf)).length
        ++ encExts (pre ++ comp ++ suf)).length)
        ++ (((ver ++ rnd ++ [sid.length] ++ sid ++ be16 suites.length
          ++ suites ++ [1, 0] ++ be16 (encExts pre
            ++ outerExtsRecord (comp.map Ext.etype) ++ encExts suf).length)
          ++ encExts pre) ++ encExts comp ++ encExts suf)
        = ([1] ++ be24 (ver ++ rnd ++ [sid.length] ++ sid
          ++ be16 suites.length ++ suites ++ [1, 0]
          ++ be16 (encExts (pre ++ comp ++ suf)).length
          ++ encExts (pre ++ comp ++ suf)).length
          ++ ver ++ rnd ++ [sid.length] ++ sid ++ be16 suites.length
          ++ suites ++ [1, 0])
          ++ (be16 (encExts pre ++ outerExtsRecord (comp.map Ext.etype)
            ++ encExts suf).length
          ++ (encExts pre ++ (encExts comp ++ encExts suf))) := by
      simp [List.append_assoc]
    rw [hsp1]
    rw [readU16_at _ _ _ (by simp [hver, hrnd]; omega)]
    exact readU16_be16 _ _ hEB
  rw [hinit]
  have hfe : (encExts pre ++ outerExtsRecord (comp.map Ext.etype)
      ++ encExts suf).length + (0 + (encExts comp).length)
      - (5 + 2 * comp.length)
      = (encExts (pre ++ comp ++ suf)).length := by
    rw [hEBlen]
    simp only [hencI, List.length_append]
    omega
  rw [hfe]
  have hsp2 : ([1] ++ be24 (ver ++ rnd ++ [sid.length] ++ sid
      ++ be16 suites.length ++ suites ++ [1, 0]
      ++ be16 (encExts (pre ++ comp ++ suf)).length
      ++ encExts (pre ++ comp ++ suf)).length)
      ++ (((ver ++ rnd ++ [sid.length] ++ sid ++ be16 suites.length ++ suites
        ++ [1, 0] ++ be16 (encExts pre
          ++ outerExtsRecord (comp.map Ext.etype) ++ encExts suf).length)
        ++ encExts pre) ++ encExts comp ++ encExts suf)
      = ([1] ++ be24 (ver ++ rnd ++ [sid.length] ++ sid
        ++ be16 suites.length ++ suites ++ [1, 0]
        ++ be16 (encExts (pre ++ comp ++ suf)).length
        ++ encExts (pre ++ comp ++ suf)).length
        ++ ver ++ rnd ++ [sid.length] ++ sid ++ be16 suites.length
        ++ suites ++ [1, 0])
        ++ ((encExts pre ++ outerExtsRecord (comp.map Ext.etype)
          ++ encExts suf).length / 256 % 256
          :: ((encExts pre ++ outerExtsRecord (comp.map Ext.etype)
            ++ encExts suf).length % 256
          :: (encExts pre ++ (encExts comp ++ encExts suf)))) := by
    simp [be16, List.append_assoc]
  rw [hsp2]
  rw [set_at _ _ _ (34 + 1 + sid.length + 2 + suites.length + 2 + 4) _
    (by simp only [List.length_append, List.length_cons, List.length_nil,
      be16_length, be24_length, hver, hrnd]; omega)]
  have hsp3 : ([1] ++ be24 (ver ++ rnd ++ [sid.length] ++ sid
      ++ be16 suites.length ++ suites ++ [1, 0]
      ++ be16 (encExts (pre ++ comp ++ suf)).length
      ++ encExts (pre ++ comp ++ suf)).length
      ++ ver ++ rnd ++ [sid.length] ++ sid ++ be16 suites.length
      ++ suites ++ [1, 0])
      ++ ((encExts (pre ++ comp ++ suf)).length % 65536 / 256
        :: ((encExts pre ++ outerExtsRecord (comp.map Ext.etype)
          ++ encExts suf).length % 256
        :: (encExts pre ++ (encExts comp ++ encExts suf))))
      = (([1] ++ be24 (ver ++ rnd ++ [sid.length] ++ sid
        ++ be16 suites.length ++ suites ++ [1, 0]
        ++ be16 (encExts (pre ++ comp ++ suf)).length
        ++ encExts (pre ++ comp ++ suf)).length
        ++ ver ++ rnd ++ [sid.length] ++ sid ++ be16 suites.length
        ++ suites ++ [1, 0])
        ++ [(encExts (pre ++ comp ++ suf)).length % 65536 / 256])
        ++ ((encExts pre ++ outerExtsRecord (comp.map Ext.etype)
          ++ encExts suf).length % 256
        :: (encExts pre ++ (encExts comp ++ encExts suf))) := by
    simp [List.append_assoc]
  rw [hsp3]
  rw [set_at _ _ _ (34 + 1 + sid.length + 2 + suites.length + 2 + 5) _
    (by simp only [List.length_append, List.length_cons, List.length_nil,
      be16_length, be24_length, hver, hrnd]; omega)]
  have hm1 : (encExts (pre ++ comp ++ suf)).length % 65536 / 256
      = (encExts (pre ++ comp ++ suf)).length / 256 % 256 := by omega
  rw [hm1]
  simp [be16, hencI, encExts_append, List.append_assoc]

/-- C1 (amended: the compressed extensions must form a contiguous block of
the inner's extension list; for a non-contiguous compression set the decode
result moves the compressed extensions together, see the counterexample):
the encoded inner carries a zero-length session id, a single
outer_extensions record listing all compressed types at the position of the
first compressed extension, and the other extensions in their original
order; decoding the encoded inner against an outer ClientHello that carries
the compressed extensions exactly once reconstructs the original inner
ClientHello byte-identically. -/
theorem encode_decode_inner_roundtrip (ver rnd sid suites : List Nat)
    (pre comp suf obPre obSuf : List Ext)
    (hver : ver.length = 2) (hrnd : rnd.length = 32)
    (hsl : suites.length < 65536)
    (hwfI : ∀ e ∈ pre ++ comp ++ suf, e.etype < 65536 ∧ e.val.length < 65536)
    (hwfO : ∀ e ∈ obPre ++ obSuf, e.etype < 65536 ∧ e.val.length < 65536)
    (hpreC : ∀ e ∈ pre, (comp.map Ext.etype).contains e.etype = false)
    (hsufC : ∀ e ∈ suf, (comp.map Ext.etype).contains e.etype = false)
    (hpreO : ∀ e ∈ pre, e.etype ≠ TLSEXT_TYPE_outer_extensions)
    (hobdis : ∀ e ∈ obPre ++ obSuf, e.etype ∉ comp.map Ext.etype)
    (hnodup : (comp.map Ext.etype).Nodup)
    (hne : comp ≠ [])
    (hn20 : comp.length ≤ ECH_OUTERS_MAX)
    (hEB : (encExts pre ++ outerExtsRecord (comp.map Ext.etype)
      ++ encExts suf).length < 65536)
    (hFE : (encExts (pre ++ comp ++ suf)).length < 65536) :
    ech_encode_inner ver rnd suites (comp.map Ext.etype) (pre ++ comp ++ suf)
      = ver ++ rnd ++ [0] ++ be16 suites.length ++ suites ++ [1, 0]
        ++ be16 (encExts pre ++ outerExtsRecord (comp.map Ext.etype)
          ++ encExts suf).length
        ++ (encExts pre ++ outerExtsRecord (comp.map Ext.etype)
          ++ encExts suf)
    ∧ ech_decode_inner
        (ech_encode_inner ver rnd suites (comp.map Ext.etype)
          (pre ++ comp ++ suf))
        sid
        (be16 (encExts (obPre ++ comp ++ obSuf)).length
          ++ encExts (obPre ++ comp ++ obSuf)) 0
      = some ([1] ++ be24 (ver ++ rnd ++ [sid.length] ++ sid
          ++ be16 suites.length ++ suites ++ [1, 0]
          ++ be16 (encExts (pre ++ comp ++ suf)).length
          ++ encExts (pre ++ comp ++ suf)).length
        ++ (ver ++ rnd ++ [sid.length] ++ sid ++ be16 suites.length ++ suites
          ++ [1, 0] ++ be16 (encExts (pre ++ comp ++ suf)).length
          ++ encExts (pre ++ comp ++ suf))) := by
  have hcomp : ∀ e ∈ comp, (comp.map Ext.etype).contains e.etype = true := by
    intro e he
    simpa using List.mem_map_of_mem Ext.etype he
  have henc : ech_encode_inner ver rnd suites (comp.map Ext.etype)
      (pre ++ comp ++ suf)
      = ver ++ rnd ++ [0] ++ be16 suites.length ++ suites ++ [1, 0]
        ++ be16 (encExts pre ++ outerExtsRecord (comp.map Ext.etype)
          ++ encExts suf).length
        ++ (encExts pre ++ outerExtsRecord (comp.map Ext.etype)
          ++ encExts suf) := by
    unfold ech_encode_inner
    simp only []
    rw [encode_inner_shape (comp.map Ext.etype) pre comp suf hpreC hcomp
      hsufC hne]
  refine ⟨henc, ?_⟩
  rw [henc]
  exact decode_inner_spec ver rnd sid suites pre comp suf obPre obSuf hver
    hrnd hsl hwfI hwfO hpreO hobdis hnodup hne hn20 hEB hFE

set_option maxHeartbeats 1000000 in
/-- Witness for the contiguous round trip: three inner extensions of which
the middle two-element block is compressed, and an outer carrying the
compressed pair between two unrelated extensions. -/
theorem encode_decode_inner_roundtrip_witness :
    ech_encode_inner [3, 3] (List.replicate 32 170) [0, 47]
        (([⟨1, [10]⟩, ⟨3, [12]⟩] : List Ext).map Ext.etype)
        (([⟨2, [11]⟩] : List Ext) ++ ([⟨1, [10]⟩, ⟨3, [12]⟩] : List Ext) ++ ([⟨5, [13]⟩] : List Ext))
      = [3, 3] ++ List.replicate 32 170 ++ [0] ++ be16 ([0, 47] : List Nat).length
        ++ [0, 47] ++ [1, 0]
        ++ be16 (encExts ([⟨2, [11]⟩] : List Ext)
          ++ outerExtsRecord (([⟨1, [10]⟩, ⟨3, [12]⟩] : List Ext).map Ext.etype)
          ++ encExts ([⟨5, [13]⟩] : List Ext)).length
        ++ (encExts ([⟨2, [11]⟩] : List Ext)
          ++ outerExtsRecord (([⟨1, [10]⟩, ⟨3, [12]⟩] : List Ext).map Ext.etype)
          ++ encExts ([⟨5, [13]⟩] : List Ext))
    ∧ ech_decode_inner
        (ech_encode_inner [3, 3] (List.replicate 32 170) [0, 47]
          (([⟨1, [10]⟩, ⟨3, [12]⟩] : List Ext).map Ext.etype)
          (([⟨2, [11]⟩] : List Ext) ++ ([⟨1, [10]⟩, ⟨3, [12]⟩] : List Ext) ++ ([⟨5, [13]⟩] : List Ext)))
        [9]
        (be16 (encExts (([⟨7, [1, 2]⟩] : List Ext) ++ ([⟨1, [10]⟩, ⟨3, [12]⟩] : List Ext)
            ++ ([⟨8, []⟩] : List Ext))).length
          ++ encExts (([⟨7, [1, 2]⟩] : List Ext) ++ ([⟨1, [10]⟩, ⟨3, [12]⟩] : List Ext)
            ++ ([⟨8, []⟩] : List Ext))) 0
      = some ([1] ++ be24 ([3, 3] ++ List.replicate 32 170
          ++ [([9] : List Nat).length] ++ [9] ++ be16 ([0, 47] : List Nat).length
          ++ [0, 47] ++ [1, 0]
          ++ be16 (encExts (([⟨2, [11]⟩] : List Ext) ++ ([⟨1, [10]⟩, ⟨3, [12]⟩] : List Ext)
            ++ ([⟨5, [13]⟩] : List Ext))).length
          ++ encExts (([⟨2, [11]⟩] : List Ext) ++ ([⟨1, [10]⟩, ⟨3, [12]⟩] : List Ext)
            ++ ([⟨5, [13]⟩] : List Ext))).length
        ++ ([3, 3] ++ List.replicate 32 170 ++ [([9] : List Nat).length] ++ [9]
          ++ be16 ([0, 47] : List Nat).length ++ [0, 47] ++ [1, 0]
          ++ be16 (encExts (([⟨2, [11]⟩] : List Ext) ++ ([⟨1, [10]⟩, ⟨3, [12]⟩] : List Ext)
            ++ ([⟨5, [13]⟩] : List Ext))).length
          ++ encExts (([⟨2, [11]⟩] : List Ext) ++ ([⟨1, [10]⟩, ⟨3, [12]⟩] : List Ext)
            ++ ([⟨5, [13]⟩] : List Ext)))) :=
  encode_decode_inner_roundtrip [3, 3] (List.replicate 32 170) [9] [0, 47]
    ([⟨2, [11]⟩] : List Ext) ([⟨1, [10]⟩, ⟨3, [12]⟩] : List Ext)
    ([⟨5, [13]⟩] : List Ext) ([⟨7, [1, 2]⟩] : List Ext)
    ([⟨8, []⟩] : List Ext)
    rfl rfl (by decide) (by decide) (by decide) (by decide) (by decide)
    (by decide) (by decide) (by decide) (by decide) (by decide) (by decide)
    (by decide)

/-- Compressing a non-contiguous set of inner extensions (the first and the
third of three) and decoding against an outer that carries them produces the
compressed extensions as one block at the position of the first compressed
extension: the result differs from the original inner, whose middle
extension separated them. -/
theorem decode_reorders_noncontiguous :
    ech_decode_inner c1enc [1, 2] c1ob 0 = some c1reordered
      ∧ c1reordered ≠ c1orig := by
  constructor
  · decide
  · decide

end ECH
